import Mathlib

/-!
Shallow embedding of the `houdini_bridge` package (approval.py,
message_handler.py, commands.py, server.py) of the polyfactory repository.

Modelling conventions:
* Wire values (the MessagePack payloads the bridge exchanges) are modelled by
  the inductive `Value`: nil, booleans, integers, strings, arrays and maps.
  Floats and binary blobs are omitted: no claim concerns them.  Map keys are
  arbitrary values, as in MessagePack; the bridge itself only ever looks up
  string keys (`dict.get`).
* Python `dict.get(k)` / `dict.get(k, d)` are `dget` / `dgetD`; they return
  `Value.nil` (Python `None`) resp. the default when the key is absent.
* The host application (the `hou` module) is an external collaborator.  It is
  modelled by the oracle structure `Hou`: one field per host-API call the
  executor makes, each returning either a value or a raised exception message
  (`Except String _`).  `Host.hou = none` models running outside Houdini
  (the `import hou` failure path).
* Confirmation dialogs (`hou.ui.displayMessage`) are modelled by a log of
  `Dialog` records threaded through the approval manager; the operator's
  button choice for the n-th dialog is given by the oracles `Host.choice`
  (single-command dialogs) and `Host.batchChoice` (batch dialogs).
* Python exceptions that the bridge catches are modelled with
  `Except String`; the string is the `str(e)` text.
-/

namespace HoudiniBridge

/-- MessagePack-style wire value (the payloads the bridge exchanges).
Floats and binary blobs are omitted: no claim concerns them. -/
inductive Value where
  | nil : Value
  | bool : Bool → Value
  | int : Int → Value
  | str : String → Value
  | list : List Value → Value
  | map : List (Value × Value) → Value
deriving Repr

/-- Python `==` as used on dictionary keys.  Keys of a Python dict are
necessarily hashable, so the only comparisons a dict lookup can ever make
are between scalars (None, bool, int, str); two containers are never both
keys (constructing such a dict raises `unhashable type` first, and msg
unpacking would already have raised), so returning `false` for them is
exact for every comparison the bridge can perform. -/
def Value.beq : Value → Value → Bool
  | .nil, .nil => true
  | .bool a, .bool b => a == b
  | .int a, .int b => a == b
  | .str a, .str b => a == b
  | _, _ => false

/-- Python truthiness of a wire value (`if key:`). -/
def Value.truthy : Value → Bool
  | .nil => false
  | .bool b => b
  | .int n => n != 0
  | .str s => s != ""
  | .list xs => !xs.isEmpty
  | .map m => !m.isEmpty

/-- Whether the value is hashable in Python (usable as a dict key). -/
def Value.hashable : Value → Bool
  | .list _ => false
  | .map _ => false
  | _ => true

/-- Python type name, used in exception texts. -/
def Value.typeName : Value → String
  | .nil => "NoneType"
  | .bool _ => "bool"
  | .int _ => "int"
  | .str _ => "str"
  | .list _ => "list"
  | .map _ => "dict"

/-- Python `str()` rendering as used inside f-strings.  Container contents
are abbreviated; no claim depends on the text of a prompt or preview. -/
def Value.pyStr : Value → String
  | .nil => "None"
  | .bool b => if b then "True" else "False"
  | .int n => toString n
  | .str s => s
  | .list _ => "[...]"
  | .map _ => "\x7b...\x7d"

/-- Dictionary lookup by arbitrary key (Python `d[k]` / `d.get(k)` hit). -/
def vlookup (m : List (Value × Value)) (k : Value) : Option Value :=
  (m.find? (fun p => Value.beq p.1 k)).map (·.2)

/-- Python `d.get(k, default)` with a string key. -/
def dgetD (m : List (Value × Value)) (k : String) (d : Value) : Value :=
  (vlookup m (.str k)).getD d

/-- Python `d.get(k)` with a string key (absent ↦ `None`). -/
def dget (m : List (Value × Value)) (k : String) : Value :=
  dgetD m k .nil

/-- Python `d[k] = v` on an insertion-ordered dict: replace in place or
append. -/
def dictSet : List (Value × Value) → Value → Value → List (Value × Value)
  | [], k, v => [(k, v)]
  | (k', v') :: rest, k, v =>
      if Value.beq k' k then (k, v) :: rest else (k', v') :: dictSet rest k v

/-- Calling `.get` on a non-dict raises `AttributeError`; this coerces a
value to a dict or produces that exception's message. -/
def asDict : Value → Except String (List (Value × Value))
  | .map m => .ok m
  | v => .error ("'" ++ v.typeName ++ "' object has no attribute 'get'")

/-- Iterating a non-list raises; this coerces a value to a list or produces
an exception message.  (Python would also iterate strings and dicts and fail
later at `cmd.get`; the model collapses this to one raised error — no claim
exercises that corner.) -/
def asList : Value → Except String (List Value)
  | .list xs => .ok xs
  | v => .error ("'" ++ v.typeName ++ "' object is not iterable")

/-- Reply structure `{'success': bool, 'data': ..., 'error': ..., 'traceback': ...}`.
Fields other than `success` are present only when the source sets them. -/
structure Result where
  success : Bool
  data : Option Value := none
  error : Option String := none
  traceback : Option String := none
deriving Repr

/-- The reply dict as a wire value, keys in the source's insertion order. -/
def Result.toValue (r : Result) : Value :=
  .map ([(Value.str "success", Value.bool r.success)]
    ++ (match r.data with | some d => [(Value.str "data", d)] | none => [])
    ++ (match r.error with | some e => [(Value.str "error", Value.str e)] | none => [])
    ++ (match r.traceback with | some t => [(Value.str "traceback", Value.str t)] | none => []))

/-- Stand-in for `traceback.format_exc()`; content never inspected. -/
def formatExc (e : String) : String := "Traceback (most recent call last):\n" ++ e

/-- `{'success': False, 'error': e}`. -/
def failure (e : String) : Result := { success := false, error := some e }

/-- `{'success': True, 'data': d}`. -/
def successData (d : Value) : Result := { success := true, data := some d }

/-- `{'success': False, 'error': str(e), 'traceback': traceback.format_exc()}`. -/
def exnResult (e : String) : Result :=
  { success := false, error := some e, traceback := some (formatExc e) }

/-- `{'success': False, 'error': 'Houdini not available'}` (commands.py). -/
def houNotAvailable : Result := failure "Houdini not available"

/-- `{'success': False, 'error': 'Command cancelled by user'}` (message_handler.py). -/
def cancelledResult : Result := failure "Command cancelled by user"

/-- `ApprovalMode` enum from approval.py: AUTO / PREVIEW / DESTRUCTIVE. -/
inductive ApprovalMode where
  | auto
  | preview
  | destructive
deriving DecidableEq, Repr

/-- The enum member's `.value` string. -/
def ApprovalMode.value : ApprovalMode → String
  | .auto => "auto"
  | .preview => "preview"
  | .destructive => "destructive"

/-- `ApprovalMode(mode_str)`: `some` on the three member strings, `none`
models the `ValueError` raised for anything else. -/
def parseApprovalMode : Value → Option ApprovalMode
  | .str "auto" => some .auto
  | .str "preview" => some .preview
  | .str "destructive" => some .destructive
  | _ => none

/-- A host-side parameter handle, carrying the attributes the executor
reads: `name()`, `eval()`, `description()`, `parmTemplate().type().name()`. -/
structure Parm where
  name : String
  value : Value
  label : String
  typeName : String
deriving Repr

/-- A host-side node handle, carrying the attributes the executor reads. -/
structure Node where
  path : String
  name : String
  typeName : String
  typeDescription : String
  position : List Value
  parms : List Parm
deriving Repr

/-- `node.parm(name)`: look a parameter up by name; `None` when absent. -/
def Node.parm (n : Node) (k : Value) : Option Parm :=
  n.parms.find? (fun p => Value.beq (.str p.name) k)

/-- Oracle for the host-API surface (`hou`) the executor calls into.  Calls
that can raise in Python return `Except String _`, the string being the
exception text.  The host scene itself is external state that the model
does not track; each call's outcome is fixed by the oracle. -/
structure Hou where
  /-- `hou.node(path)`: a node or `None`; raises on non-string paths. -/
  node : Value → Except String (Option Node)
  /-- `parent.createNode(node_type, node_name=name)`; may raise. -/
  createNode : Node → Value → Value → Except String Node
  /-- `node.destroy()`; may raise. -/
  destroy : Node → Except String Unit
  /-- `parm.set(value)`; may raise. -/
  parmSet : Parm → Value → Except String Unit
  /-- `hou.selectedNodes()`. -/
  selectedNodes : List Node
  /-- `node.setSelected(flag)`; may raise. -/
  setSelected : Node → Bool → Except String Unit
  /-- `hou.hipFile.save()` / `hou.hipFile.save(file_name=path)`; may raise. -/
  hipSave : Option Value → Except String Unit
  /-- `hou.hipFile.load(path)`; may raise. -/
  hipLoad : Value → Except String Unit
  /-- `hou.hipFile.path()`. -/
  hipPath : Value
  /-- `exec(code, namespace)` with `session_state` exposed in the namespace:
  given the code value and the current session-state contents, yields the
  session-state contents after the snippet ran (the snippet can mutate the
  shared dict even when it raises) and either the namespace's `result`
  variable (`None` when unset) or the raised exception's text. -/
  execPython : Value → List (Value × Value) → List (Value × Value) × Except String Value

/-- One confirmation dialog surfaced to the operator
(`hou.ui.displayMessage`): the message text and whether it was the
three-button batch dialog. -/
structure Dialog where
  message : String
  isBatch : Bool
deriving DecidableEq, Repr

/-- The process environment: the `hou` module when running inside Houdini
(`none` models the `ImportError` path), and the operator's button choice at
the n-th dialog of the session (`choice` for two-button single-command
dialogs, where 0 = Execute; `batchChoice` for three-button batch dialogs,
where 0 = Execute All, 1 = Review Each, 2 = Cancel All). -/
structure Host where
  hou : Option Hou
  choice : Nat → Nat
  batchChoice : Nat → Nat

namespace ApprovalManager

/-- `ApprovalManager.requires_approval(command_type, is_destructive)` under
mode `mode`.  The `commandType` argument is received but never read by the
source. -/
def requiresApproval (mode : ApprovalMode) (commandType : Value)
    (isDestructive : Bool) : Bool :=
  match mode with
  | .auto => isDestructive
  | .preview => true
  | .destructive => isDestructive

/-- `ApprovalManager.request_approval(command, preview, is_destructive)`.
Returns the decision and the dialog log after the call (one dialog appended
when a prompt was actually shown).  Outside Houdini the source prints a line
and returns `True`. -/
def requestApproval (host : Host) (mode : ApprovalMode) (command : Value)
    (preview : Value) (isDestructive : Bool) (dialogs : List Dialog) :
    Bool × List Dialog :=
  if !(requiresApproval mode command isDestructive) then
    (true, dialogs)
  else
    match host.hou with
    | none => (true, dialogs)
    | some _ =>
        let message := "AI Agent Request:\n\n" ++ command.pyStr ++ "\n\n"
          ++ preview.pyStr ++ "\n\nExecute this operation?"
        let result := host.choice dialogs.length
        (result == 0, dialogs ++ [⟨message, false⟩])

/-- One entry of the list `_handle_batch` passes to `approve_batch`: the
dicts it builds always carry the keys `type`, `description`, `preview` and
`is_destructive`, so `approve_batch`'s defaulting `.get` calls read exactly
these fields. -/
structure BatchItem where
  type : Value
  description : Value
  preview : Value
  isDestructive : Bool
deriving Repr

/-- The `Review Each` loop of `approve_batch`: walk the items in order,
requesting approval for each; on the first denial append `False` for every
remaining item and stop. -/
def reviewEachLoop (host : Host) (mode : ApprovalMode) :
    List BatchItem → List Dialog → List Bool × List Dialog
  | [], dialogs => ([], dialogs)
  | cmd :: rest, dialogs =>
      let step := requestApproval host mode cmd.description cmd.preview
        cmd.isDestructive dialogs
      if step.1 then
        let tail := reviewEachLoop host mode rest step.2
        (true :: tail.1, tail.2)
      else
        (false :: List.replicate rest.length false, step.2)

/-- `ApprovalManager.approve_batch(commands)`: outside Houdini approve all;
otherwise show the three-button batch dialog and branch on the choice
(`result == 0` approve all, `result == 2` deny all, anything else reviews
each item). -/
def approveBatch (host : Host) (mode : ApprovalMode)
    (commands : List BatchItem) (dialogs : List Dialog) :
    List Bool × List Dialog :=
  match host.hou with
  | none => (List.replicate commands.length true, dialogs)
  | some _ =>
      let previewText := String.intercalate "\n"
        (commands.enum.map (fun p => toString (p.1 + 1) ++ ". " ++ p.2.description.pyStr))
      let message := "AI Agent Batch Request (" ++ toString commands.length
        ++ " operations):\n\n" ++ previewText ++ "\n\nExecute all?"
      let result := host.batchChoice dialogs.length
      let dialogs' := dialogs ++ [⟨message, true⟩]
      if result == 0 then (List.replicate commands.length true, dialogs')
      else if result == 2 then (List.replicate commands.length false, dialogs')
      else reviewEachLoop host mode commands dialogs'

end ApprovalManager

/-- The mutable state a `CommandExecutor` instance owns: `session_state`
(a dict that can hold any hashable key, including `None`), `last_selection`,
plus an instrumentation counter of how many times `execute` was entered
(used to state "the executor was never invoked"). -/
structure ExecState where
  sessionState : List (Value × Value)
  lastSelection : Option (List Node)
  execCount : Nat
deriving Repr

/-- The fresh state `CommandExecutor.__init__` sets up. -/
def ExecState.initial : ExecState :=
  { sessionState := [], lastSelection := none, execCount := 0 }

namespace CommandExecutor

/-- The `parm.set(value)` loop of `_create_node` over `parameters.items()`. -/
def setParms (hou : Hou) (node : Node) :
    List (Value × Value) → Except String Unit
  | [] => .ok ()
  | (pn, v) :: rest => do
      match node.parm pn with
      | some parm => hou.parmSet parm v
      | none => pure ()
      setParms hou node rest

/-- `CommandExecutor._create_node`. -/
def execCreateNode (hou? : Option Hou) (command : List (Value × Value)) :
    Except String Result :=
  match hou? with
  | none => .ok houNotAvailable
  | some hou => do
      let parentPath := dgetD command "parent" (.str "/obj")
      let nodeType := dget command "node_type"
      let name := dget command "name"
      let parent? ← hou.node parentPath
      match parent? with
      | none => .ok (failure ("Parent node not found: " ++ parentPath.pyStr))
      | some parent => do
          let node ← hou.createNode parent nodeType name
          match dgetD command "parameters" (.map []) with
          | .map ps => do
              setParms hou node ps
              .ok (successData (.map
                [(.str "node_path", .str node.path),
                 (.str "node_type", .str node.typeName),
                 (.str "name", .str node.name)]))
          | v => .error ("'" ++ v.typeName ++ "' object has no attribute 'items'")

/-- `CommandExecutor._delete_node`. -/
def execDeleteNode (hou? : Option Hou) (command : List (Value × Value)) :
    Except String Result :=
  match hou? with
  | none => .ok houNotAvailable
  | some hou => do
      let nodePath := dget command "node_path"
      let node? ← hou.node nodePath
      match node? with
      | none => .ok (failure ("Node not found: " ++ nodePath.pyStr))
      | some node => do
          hou.destroy node
          .ok (successData (.map [(.str "deleted", nodePath)]))

/-- `CommandExecutor._set_parameter`. -/
def execSetParameter (hou? : Option Hou) (command : List (Value × Value)) :
    Except String Result :=
  match hou? with
  | none => .ok houNotAvailable
  | some hou => do
      let nodePath := dget command "node_path"
      let parmName := dget command "parameter"
      let value := dget command "value"
      let node? ← hou.node nodePath
      match node? with
      | none => .ok (failure ("Node not found: " ++ nodePath.pyStr))
      | some node =>
          match node.parm parmName with
          | none => .ok (failure ("Parameter not found: " ++ parmName.pyStr))
          | some parm => do
              hou.parmSet parm value
              .ok (successData (.map
                [(.str "node_path", nodePath),
                 (.str "parameter", parmName),
                 (.str "value", value)]))

/-- `CommandExecutor._get_parameter`. -/
def execGetParameter (hou? : Option Hou) (command : List (Value × Value)) :
    Except String Result :=
  match hou? with
  | none => .ok houNotAvailable
  | some hou => do
      let nodePath := dget command "node_path"
      let parmName := dget command "parameter"
      let node? ← hou.node nodePath
      match node? with
      | none => .ok (failure ("Node not found: " ++ nodePath.pyStr))
      | some node =>
          match node.parm parmName with
          | none => .ok (failure ("Parameter not found: " ++ parmName.pyStr))
          | some parm =>
              .ok (successData (.map
                [(.str "node_path", nodePath),
                 (.str "parameter", parmName),
                 (.str "value", parm.value)]))

/-- `CommandExecutor._get_selection` (also records `last_selection`). -/
def execGetSelection (hou? : Option Hou) (es : ExecState) :
    Result × ExecState :=
  match hou? with
  | none => (houNotAvailable, es)
  | some hou =>
      let selected := hou.selectedNodes
      (successData (.map
        [(.str "selection", .list (selected.map (fun n => .str n.path))),
         (.str "count", .int selected.length)]),
       { es with lastSelection := some selected })

/-- The `hou.node(path)` collection loop of `_select_nodes`. -/
def collectNodes (hou : Hou) : List Value → Except String (List Node)
  | [] => .ok []
  | p :: rest => do
      let n? ← hou.node p
      let ns ← collectNodes hou rest
      match n? with
      | some n => .ok (n :: ns)
      | none => .ok ns

/-- A `for node in ...:` loop body applying one fallible host call per
node. -/
def forEach (g : Node → Except String Unit) : List Node → Except String Unit
  | [] => .ok ()
  | n :: rest => do
      g n
      forEach g rest

/-- `CommandExecutor._select_nodes`. -/
def execSelectNodes (hou? : Option Hou) (command : List (Value × Value)) :
    Except String Result :=
  match hou? with
  | none => .ok houNotAvailable
  | some hou => do
      let nodePaths ← asList (dgetD command "nodes" (.list []))
      let nodes ← collectNodes hou nodePaths
      forEach (fun n => hou.setSelected n false) hou.selectedNodes
      forEach (fun n => hou.setSelected n true) nodes
      .ok (successData (.map
        [(.str "selected", .list (nodes.map (fun n => .str n.path))),
         (.str "count", .int nodes.length)]))

/-- `CommandExecutor._get_node_info`. -/
def execGetNodeInfo (hou? : Option Hou) (command : List (Value × Value)) :
    Except String Result :=
  match hou? with
  | none => .ok houNotAvailable
  | some hou => do
      let nodePath := dget command "node_path"
      let node? ← hou.node nodePath
      match node? with
      | none => .ok (failure ("Node not found: " ++ nodePath.pyStr))
      | some node =>
          let parmsInfo := node.parms.map (fun p =>
            (Value.str p.name, Value.map
              [(.str "value", p.value),
               (.str "label", .str p.label),
               (.str "type", .str p.typeName)]))
          .ok (successData (.map
            [(.str "path", .str node.path),
             (.str "name", .str node.name),
             (.str "type", .str node.typeName),
             (.str "type_description", .str node.typeDescription),
             (.str "position", .list node.position),
             (.str "parameters", .map parmsInfo)]))

/-- `CommandExecutor._execute_python`: runs the snippet in a namespace that
exposes the session-state dict; its own `try` converts a raised exception
into a failure Result with a traceback, keeping whatever mutations the
snippet already made to the session state. -/
def execExecutePython (hou? : Option Hou) (es : ExecState)
    (command : List (Value × Value)) : Result × ExecState :=
  match hou? with
  | none => (houNotAvailable, es)
  | some hou =>
      let code := dget command "code"
      let run := hou.execPython code es.sessionState
      let es' := { es with sessionState := run.1 }
      match run.2 with
      | .ok result => (successData (.map [(.str "result", result)]), es')
      | .error e => (exnResult e, es')

/-- `CommandExecutor._save_scene`. -/
def execSaveScene (hou? : Option Hou) (command : List (Value × Value)) :
    Except String Result :=
  match hou? with
  | none => .ok houNotAvailable
  | some hou => do
      let filepath := dget command "filepath"
      if filepath.truthy then hou.hipSave (some filepath) else hou.hipSave none
      .ok (successData (.map [(.str "filepath", hou.hipPath)]))

/-- `CommandExecutor._load_scene`. -/
def execLoadScene (hou? : Option Hou) (command : List (Value × Value)) :
    Except String Result :=
  match hou? with
  | none => .ok houNotAvailable
  | some hou => do
      let filepath := dget command "filepath"
      hou.hipLoad filepath
      .ok (successData (.map [(.str "filepath", hou.hipPath)]))

/-- `CommandExecutor._get_session_state`: a truthy key reads that one entry
(`dict.get` raises on unhashable keys); a falsy or missing key returns the
whole state dict. -/
def execGetSessionState (es : ExecState) (command : List (Value × Value)) :
    Except String Result :=
  let key := dget command "key"
  if key.truthy then
    if key.hashable then
      .ok (successData (.map
        [(.str "key", key),
         (.str "value", (vlookup es.sessionState key).getD .nil)]))
    else
      .error ("unhashable type: '" ++ key.typeName ++ "'")
  else
    .ok (successData (.map [(.str "state", .map es.sessionState)]))

/-- `CommandExecutor._set_session_state`: stores under whatever
`command.get('key')` yields — `None` included — with no validation;
unhashable keys make the dict assignment raise. -/
def execSetSessionState (es : ExecState) (command : List (Value × Value)) :
    Except String (Result × ExecState) :=
  let key := dget command "key"
  let value := dget command "value"
  if key.hashable then
    .ok (successData (.map [(.str "key", key), (.str "value", value)]),
      { es with sessionState := dictSet es.sessionState key value })
  else
    .error ("unhashable type: '" ++ key.typeName ++ "'")

/-- The body of `execute`'s `try` block: route on `command.get('type')`
through the source's `if cmd_type == 'create_node': ... elif ...` chain.
`es` is the state the chosen handler runs against. -/
def attempt (host : Host) (es : ExecState) (command : List (Value × Value)) :
    Except String (Result × ExecState) :=
  let cmdType := dget command "type"
  if Value.beq cmdType (.str "create_node") then
      (execCreateNode host.hou command).map (fun r => (r, es))
    else if Value.beq cmdType (.str "delete_node") then
      (execDeleteNode host.hou command).map (fun r => (r, es))
    else if Value.beq cmdType (.str "set_parameter") then
      (execSetParameter host.hou command).map (fun r => (r, es))
    else if Value.beq cmdType (.str "get_parameter") then
      (execGetParameter host.hou command).map (fun r => (r, es))
    else if Value.beq cmdType (.str "get_selection") then
      .ok (execGetSelection host.hou es)
    else if Value.beq cmdType (.str "select_nodes") then
      (execSelectNodes host.hou command).map (fun r => (r, es))
    else if Value.beq cmdType (.str "get_node_info") then
      (execGetNodeInfo host.hou command).map (fun r => (r, es))
    else if Value.beq cmdType (.str "execute_python") then
      .ok (execExecutePython host.hou es command)
    else if Value.beq cmdType (.str "save_scene") then
      (execSaveScene host.hou command).map (fun r => (r, es))
    else if Value.beq cmdType (.str "load_scene") then
      (execLoadScene host.hou command).map (fun r => (r, es))
    else if Value.beq cmdType (.str "get_session_state") then
      (execGetSessionState es command).map (fun r => (r, es))
    else if Value.beq cmdType (.str "set_session_state") then
      execSetSessionState es command
    else
      .ok (failure ("Unknown command type: " ++ cmdType.pyStr), es)

/-- `CommandExecutor.execute`: dispatch through `attempt`; any exception a
handler raises is caught and converted into
`{'success': False, 'error': str(e), 'traceback': ...}`. -/
def execute (host : Host) (es : ExecState) (command : List (Value × Value)) :
    Result × ExecState :=
  let es := { es with execCount := es.execCount + 1 }
  match attempt host es command with
  | .ok res => res
  | .error e => (exnResult e, es)

end CommandExecutor

namespace MessageHandler

/-- The state one `MessageHandler` owns: its `CommandExecutor`'s state, its
`ApprovalManager`'s mode, and the session's dialog log.  One handler is
created per `BridgeServer` and shared by every connection. -/
structure HandlerState where
  exec : ExecState
  mode : ApprovalMode
  dialogs : List Dialog
deriving Repr

/-- `MessageHandler.__init__`: fresh executor, approval manager in AUTO. -/
def HandlerState.initial : HandlerState :=
  { exec := ExecState.initial, mode := .auto, dialogs := [] }

/-- The static destructive command-type set of `_is_destructive_command`. -/
def destructiveTypes : List String :=
  ["create_node", "delete_node", "set_parameter", "execute_python", "load_scene"]

/-- `MessageHandler._is_destructive_command`. -/
def isDestructiveCommand (command : List (Value × Value)) : Bool :=
  match dget command "type" with
  | .str s => destructiveTypes.contains s
  | _ => false

/-- `MessageHandler._generate_description`, an `if/elif` chain on the
command type.  The fallback branch returns the raw `cmd_type` value (which
need not be a string). -/
def generateDescription (command : List (Value × Value)) : Value :=
  let cmdType := dget command "type"
  if Value.beq cmdType (.str "create_node") then
    .str ("Create " ++ (dget command "node_type").pyStr ++ " node")
  else if Value.beq cmdType (.str "delete_node") then
    .str ("Delete node: " ++ (dget command "node_path").pyStr)
  else if Value.beq cmdType (.str "set_parameter") then
    .str ("Set " ++ (dget command "parameter").pyStr ++ " on "
      ++ (dget command "node_path").pyStr)
  else if Value.beq cmdType (.str "execute_python") then
    .str "Execute Python code"
  else cmdType

/-- `MessageHandler._generate_preview`, an `if/elif` chain on the command
type.  The `execute_python` branch calls `.split` on the code value, which
raises when the value is not a string. -/
def generatePreview (command : List (Value × Value)) : Except String String :=
  let cmdType := dget command "type"
  if Value.beq cmdType (.str "create_node") then
    let parent := dgetD command "parent" (.str "/obj")
    let nodeType := dget command "node_type"
    let name := dgetD command "name" (.str "new_node")
    .ok ("Will create: " ++ parent.pyStr ++ "/" ++ name.pyStr
      ++ " (" ++ nodeType.pyStr ++ ")")
  else if Value.beq cmdType (.str "delete_node") then
    .ok ("Will delete: " ++ (dget command "node_path").pyStr)
  else if Value.beq cmdType (.str "set_parameter") then
    .ok ("Will set " ++ (dget command "node_path").pyStr ++ "."
      ++ (dget command "parameter").pyStr ++ " = "
      ++ (dget command "value").pyStr)
  else if Value.beq cmdType (.str "execute_python") then
    match dgetD command "code" (.str "") with
    | .str code =>
        let lines := code.splitOn "\n"
        let preview := String.intercalate "\n" (lines.take 5)
        let preview := if lines.length > 5 then
            preview ++ "\n... (" ++ toString (lines.length - 5) ++ " more lines)"
          else preview
        .ok ("Will execute:\n" ++ preview)
    | v => .error ("'" ++ v.typeName ++ "' object has no attribute 'split'")
  else .ok ("Will execute: " ++ cmdType.pyStr)

/-- `MessageHandler._handle_command`: approval gate, then executor.  The
`Except` error channel carries exceptions that propagate to `handle_binary`
(a non-dict `data` value, or a preview crash). -/
def handleCommand (host : Host) (st : HandlerState)
    (message : List (Value × Value)) : Except String (Result × HandlerState) := do
  let command ← asDict (dgetD message "data" (.map []))
  let isDestr := isDestructiveCommand command
  if ApprovalManager.requiresApproval st.mode (dget command "type") isDestr then
    let preview ← generatePreview command
    let step := ApprovalManager.requestApproval host st.mode
      (dget command "type") (.str preview) isDestr st.dialogs
    if step.1 then
      let run := CommandExecutor.execute host st.exec command
      .ok (run.1, { st with exec := run.2, dialogs := step.2 })
    else
      .ok (cancelledResult, { st with dialogs := step.2 })
  else
    let run := CommandExecutor.execute host st.exec command
    .ok (run.1, { st with exec := run.2 })

/-- The comprehension in `_handle_batch` that builds the dicts passed to
`approve_batch`: for each command in order, coerce to a dict and read
`type` / description / preview / destructiveness.  A non-dict entry or a
preview crash raises for the whole batch before anything executes.  The
parsed dict is kept alongside the item for the execution phase. -/
def parseBatchItems :
    List Value → Except String (List (List (Value × Value) × ApprovalManager.BatchItem))
  | [] => .ok []
  | cmdV :: rest => do
      let cmd ← asDict cmdV
      let preview ← generatePreview cmd
      let item : ApprovalManager.BatchItem :=
        { type := dget cmd "type"
          description := generateDescription cmd
          preview := .str preview
          isDestructive := isDestructiveCommand cmd }
      let restItems ← parseBatchItems rest
      .ok ((cmd, item) :: restItems)

/-- The execution loop of `_handle_batch` over `zip(commands, approvals)`:
approved commands run on the threaded executor state, denied ones get the
fixed cancellation Result. -/
def runBatchExec (host : Host) :
    ExecState → List (List (Value × Value) × Bool) → List Result × ExecState
  | es, [] => ([], es)
  | es, (cmd, approved) :: rest =>
      if approved then
        let run := CommandExecutor.execute host es cmd
        let tail := runBatchExec host run.2 rest
        (run.1 :: tail.1, tail.2)
      else
        let tail := runBatchExec host es rest
        (cancelledResult :: tail.1, tail.2)

/-- `MessageHandler._handle_batch`. -/
def handleBatch (host : Host) (st : HandlerState)
    (message : List (Value × Value)) : Except String (Result × HandlerState) := do
  let data ← asDict (dgetD message "data" (.map []))
  let commandsV ← asList (dgetD data "commands" (.list []))
  let parsed ← parseBatchItems commandsV
  let approvals := ApprovalManager.approveBatch host st.mode
    (parsed.map (·.2)) st.dialogs
  let run := runBatchExec host st.exec ((parsed.map (·.1)).zip approvals.1)
  .ok (successData (.map
      [(.str "results", .list (run.1.map Result.toValue))]),
    { st with exec := run.2, dialogs := approvals.2 })

/-- `MessageHandler._handle_set_approval_mode`. -/
def handleSetApprovalMode (host : Host) (st : HandlerState)
    (message : List (Value × Value)) : Except String (Result × HandlerState) := do
  let data ← asDict (dgetD message "data" (.map []))
  let modeStr := dget data "mode"
  match parseApprovalMode modeStr with
  | some mode =>
      .ok (successData (.map [(.str "mode", .str mode.value)]),
        { st with mode := mode })
  | none =>
      .ok (failure ("Invalid approval mode: " ++ modeStr.pyStr), st)

/-- `MessageHandler.handle_message`: route on the envelope's `type` through
the source's `if msg_type == 'command': ... elif ...` chain. -/
def handleMessage (host : Host) (st : HandlerState)
    (message : List (Value × Value)) : Except String (Result × HandlerState) :=
  let msgType := dget message "type"
  if Value.beq msgType (.str "command") then handleCommand host st message
  else if Value.beq msgType (.str "batch") then handleBatch host st message
  else if Value.beq msgType (.str "set_approval_mode") then
    handleSetApprovalMode host st message
  else if Value.beq msgType (.str "ping") then
    .ok (successData (.map [(.str "pong", .bool true)]), st)
  else .ok (failure ("Unknown message type: " ++ msgType.pyStr), st)

/-- `MessageHandler.handle_binary`.  The input is the outcome of
`msgpack.unpackb` on the received bytes (`Except.error` models a decode
exception, with the exception text); a decoded non-dict fails at
`message.get`.  Every exception escaping decode or dispatch is converted to
`{'success': False, 'error': 'Message decoding error: ' + str(e)}`, leaving
the handler state untouched.  The returned Result is what gets re-encoded
with `msgpack.packb`. -/
def handleBinary (host : Host) (st : HandlerState)
    (decoded : Except String Value) : Result × HandlerState :=
  match decoded with
  | .error e => (failure ("Message decoding error: " ++ e), st)
  | .ok v =>
      match v with
      | .map m =>
          match handleMessage host st m with
          | .ok res => res
          | .error e => (failure ("Message decoding error: " ++ e), st)
      | v =>
          (failure ("Message decoding error: '" ++ v.typeName
            ++ "' object has no attribute 'get'"), st)

end MessageHandler

namespace BridgeServer

/-- One tracked WebSocket connection (identity only). -/
structure Conn where
  id : Nat
deriving DecidableEq, Repr

/-- `BridgeServer.broadcast(message)`: if no connection is open return
immediately; otherwise encode once and attempt a send on every connection
in the active set, each send's failure caught and logged individually.  The
returned list records, in order, every connection attempted with its send
outcome; the function itself never fails. -/
def broadcast (message : Value) (activeConnections : List Conn)
    (send : Conn → Except String Unit) : List (Conn × Except String Unit) :=
  if activeConnections.isEmpty then []
  else
    let _data := message
    activeConnections.map (fun c => (c, send c))

end BridgeServer

/-! Helpers used only in the statements of the claims. -/

/-- A wire envelope `{'type': 'command', 'data': command}`. -/
def commandMsg (command : List (Value × Value)) : List (Value × Value) :=
  [(.str "type", .str "command"), (.str "data", .map command)]

/-- A wire envelope `{'type': 'batch', 'data': {'commands': cmds}}`. -/
def batchMsg (cmds : List Value) : List (Value × Value) :=
  [(.str "type", .str "batch"),
   (.str "data", .map [(.str "commands", .list cmds)])]

/-- A wire envelope `{'type': 'set_approval_mode', 'data': {'mode': m}}`. -/
def setModeMsg (m : Value) : List (Value × Value) :=
  [(.str "type", .str "set_approval_mode"),
   (.str "data", .map [(.str "mode", m)])]

/-- How many of the first `n` batch items require approval under `mode`
(each such item is exactly one prompt in the review-each walk). -/
def promptsUpTo (mode : ApprovalMode) (items : List ApprovalManager.BatchItem)
    (n : Nat) : Nat :=
  ((items.take n).filter
    (fun it => ApprovalManager.requiresApproval mode it.description it.isDestructive)).length

/-- The `get_session_state` reply carries `v` for key `k`: either as the
`value` field of the single-key form, or under `k` in the full-state form
(the branch taken for a falsy key). -/
def dataRetrieves (r : Result) (k v : Value) : Prop :=
  r.success = true ∧
    match r.data with
    | some (.map m) =>
        (vlookup m (.str "key") = some k ∧ vlookup m (.str "value") = some v)
        ∨
        (match vlookup m (.str "state") with
         | some (.map s) => vlookup s k = some v
         | _ => False)
    | _ => False

/-- Run a list of commands through one executor instance, threading its
state (the executor a `MessageHandler` owns is shared by every connection
of the server's lifetime, so consecutive commands model traffic from any
number of distinct connections). -/
def runCommands (host : Host) (es : ExecState) :
    List (List (Value × Value)) → ExecState
  | [] => es
  | c :: cs => runCommands host (CommandExecutor.execute host es c).2 cs

/-- `set_session_state` command for key `k`, value `v`. -/
def setStateCmd (k v : Value) : List (Value × Value) :=
  [(.str "type", .str "set_session_state"), (.str "key", k), (.str "value", v)]

/-- `get_session_state` command for key `k`. -/
def getStateCmd (k : Value) : List (Value × Value) :=
  [(.str "type", .str "get_session_state"), (.str "key", k)]

/-- The `/obj` network node of the concrete witness oracles. -/
def objNode : Node :=
  { path := "/obj", name := "obj", typeName := "objnet",
    typeDescription := "Object network", position := [], parms := [] }

/-- A concrete host-API oracle for witnesses: one node at `/obj`, every
fallible call succeeding, snippets leaving the session state alone. -/
def sampleHou : Hou :=
  { node := fun p => .ok (if Value.beq p (.str "/obj") then some objNode else none)
    createNode := fun parent _ _ =>
      .ok { path := parent.path ++ "/new_node", name := "new_node",
            typeName := "geo", typeDescription := "Geometry", position := [],
            parms := [] }
    destroy := fun _ => .ok ()
    parmSet := fun _ _ => .ok ()
    selectedNodes := []
    setSelected := fun _ _ => .ok ()
    hipSave := fun _ => .ok ()
    hipLoad := fun _ => .ok ()
    hipPath := .str "/tmp/scene.hip"
    execPython := fun _ st => (st, .ok .nil) }

/-- Like `sampleHou`, but `createNode` raises. -/
def houCreateFails : Hou :=
  { sampleHou with createNode := fun _ _ _ => .error "createNode failed" }

/-- A host whose `createNode` raises (operator always approves). -/
def hostCreateFails : Host :=
  { hou := some houCreateFails, choice := fun _ => 0, batchChoice := fun _ => 0 }

/-- A host running outside Houdini (the `import hou` failure path). -/
def hostOutside : Host :=
  { hou := none, choice := fun _ => 0, batchChoice := fun _ => 0 }

/-- A host inside Houdini whose operator always picks the first button. -/
def hostApprove : Host :=
  { hou := some sampleHou, choice := fun _ => 0, batchChoice := fun _ => 0 }

/-- A host inside Houdini whose operator always cancels single-command
dialogs (button 1) and picks Review Each (button 1) on batch dialogs. -/
def hostDeny : Host :=
  { hou := some sampleHou, choice := fun _ => 1, batchChoice := fun _ => 1 }

/-! Shared lemmas. -/

/-- Key equality is reflexive on every hashable (scalar) value. -/
theorem Value.beq_refl (a : Value) (ha : a.hashable = true) :
    Value.beq a a = true := by
  cases a <;> simp_all [Value.beq, Value.hashable]

/-- Key equality is sound: values it identifies are equal. -/
theorem Value.beq_sound {a b : Value} (h : Value.beq a b = true) : a = b := by
  cases a <;> cases b <;> simp [Value.beq] at h <;> simp [h]

/-- After `d[k] = v` with a hashable key, looking `k` up yields `v`. -/
theorem vlookup_dictSet_self (m : List (Value × Value)) (k v : Value)
    (hk : k.hashable = true) :
    vlookup (dictSet m k v) k = some v := by
  induction m with
  | nil => simp [dictSet, vlookup, List.find?, Value.beq_refl k hk]
  | cons p rest ih =>
      obtain ⟨k', v'⟩ := p
      by_cases h : Value.beq k' k = true
      · simp [dictSet, h, vlookup, List.find?, Value.beq_refl k hk]
      · simp only [Bool.not_eq_true] at h
        simp [dictSet, h, vlookup, List.find?] at ih ⊢
        exact ih

/-! Claim theorems. -/

/-- C10: outside the host application (`hou is None`), `request_approval`
approves everything — destructive commands included — and `approve_batch`
approves every batch wholesale, so no command is ever blocked by the
approval gate. -/
theorem C10_no_hou_approves_everything (host : Host) (hhou : host.hou = none) :
    (∀ (m : ApprovalMode) (cmd preview : Value) (d : Bool) (dialogs : List Dialog),
      ApprovalManager.requestApproval host m cmd preview d dialogs = (true, dialogs))
    ∧ (∀ (m : ApprovalMode) (items : List ApprovalManager.BatchItem)
        (dialogs : List Dialog),
      ApprovalManager.approveBatch host m items dialogs
        = (List.replicate items.length true, dialogs)) := by
  constructor
  · intro m cmd preview d dialogs
    cases h : ApprovalManager.requiresApproval m cmd d <;>
      simp [ApprovalManager.requestApproval, hhou, h]
  · intro m items dialogs
    simp [ApprovalManager.approveBatch, hhou]

/-- Witness for C10 at a concrete destructive command and a concrete batch. -/
theorem C10_witness :
    ApprovalManager.requestApproval hostOutside .destructive
        (.str "delete_node") (.str "Will delete: /obj/a") true [] = (true, [])
    ∧ ApprovalManager.approveBatch hostOutside .auto
        [{ type := .str "delete_node", description := .str "d",
           preview := .str "p", isDestructive := true }] [] = ([true], []) := by
  have h := C10_no_hou_approves_everything hostOutside rfl
  refine ⟨h.1 _ _ _ _ _, ?_⟩
  simpa using h.2 .auto
    [{ type := .str "delete_node", description := .str "d",
       preview := .str "p", isDestructive := true }] []

/-- C8: `broadcast` attempts a send on every open connection, in order; an
individual send failure is caught so it cannot suppress the attempts on the
other connections, and the function always returns (never raises) whatever
the message and send outcomes are. -/
theorem C8_broadcast_best_effort (message : Value) (conns : List BridgeServer.Conn)
    (send : BridgeServer.Conn → Except String Unit) :
    (BridgeServer.broadcast message conns send).map Prod.fst = conns
    ∧ ∀ c ∈ conns, (c, send c) ∈ BridgeServer.broadcast message conns send := by
  by_cases h : conns.isEmpty
  · rw [List.isEmpty_iff] at h
    subst h
    simp [BridgeServer.broadcast]
  · constructor
    · simp only [BridgeServer.broadcast, h, Bool.false_eq_true, if_false,
        List.map_map]
      exact List.map_id' conns
    · intro c hc
      have hm : (c, send c) ∈ conns.map (fun c => (c, send c)) :=
        List.mem_map_of_mem _ hc
      simpa [BridgeServer.broadcast, h] using hm

/-- C6: `set_approval_mode` with an invalid mode value replies with a
failure Result and leaves the whole handler state — the approval mode
included — untouched; with a valid mode string it sets exactly that mode
and echoes the value back as `{'success': True, 'data': {'mode': value}}`. -/
theorem C6_set_approval_mode (host : Host) (st : MessageHandler.HandlerState)
    (modeV : Value) :
    (parseApprovalMode modeV = none →
      MessageHandler.handleSetApprovalMode host st (setModeMsg modeV)
        = .ok (failure ("Invalid approval mode: " ++ modeV.pyStr), st))
    ∧ (∀ m : ApprovalMode, parseApprovalMode modeV = some m →
      MessageHandler.handleSetApprovalMode host st (setModeMsg modeV)
        = .ok (successData (.map [(.str "mode", .str m.value)]),
            { st with mode := m })
      ∧ modeV = .str m.value) := by
  constructor
  · intro hnone
    simp [MessageHandler.handleSetApprovalMode, setModeMsg, dget, dgetD,
      vlookup, List.find?, Value.beq, asDict, Bind.bind, Except.bind, hnone]
  · intro m hm
    constructor
    · simp [MessageHandler.handleSetApprovalMode, setModeMsg, dget, dgetD,
        vlookup, List.find?, Value.beq, asDict, Bind.bind, Except.bind, hm]
    · revert hm
      unfold parseApprovalMode
      split
      · intro hm; cases hm; rfl
      · intro hm; cases hm; rfl
      · intro hm; cases hm; rfl
      · intro hm; cases hm

/-- Witness for C6: a bogus mode string is rejected with the state intact,
and `"preview"` is accepted and echoed. -/
theorem C6_witness :
    MessageHandler.handleSetApprovalMode hostOutside
        MessageHandler.HandlerState.initial (setModeMsg (.str "bogus"))
      = .ok (failure "Invalid approval mode: bogus",
          MessageHandler.HandlerState.initial)
    ∧ MessageHandler.handleSetApprovalMode hostOutside
        MessageHandler.HandlerState.initial (setModeMsg (.str "preview"))
      = .ok (successData (.map [(.str "mode", .str "preview")]),
          { MessageHandler.HandlerState.initial with mode := .preview }) := by
  constructor
  · exact (C6_set_approval_mode hostOutside MessageHandler.HandlerState.initial
      (.str "bogus")).1 rfl
  · exact ((C6_set_approval_mode hostOutside MessageHandler.HandlerState.initial
      (.str "preview")).2 .preview rfl).1

/-- When approval is required and the host UI is present, `request_approval`
shows exactly one dialog and approves iff the operator picks button 0. -/
theorem requestApproval_required (host : Host) (h : Hou) (mode : ApprovalMode)
    (cmd preview : Value) (d : Bool) (dialogs : List Dialog)
    (hhou : host.hou = some h)
    (hreq : ApprovalManager.requiresApproval mode cmd d = true) :
    ∃ dlg, ApprovalManager.requestApproval host mode cmd preview d dialogs
      = (host.choice dialogs.length == 0, dialogs ++ [dlg]) := by
  refine ⟨⟨"AI Agent Request:\n\n" ++ cmd.pyStr ++ "\n\n"
    ++ preview.pyStr ++ "\n\nExecute this operation?", false⟩, ?_⟩
  simp [ApprovalManager.requestApproval, hreq, hhou]

/-- When approval is not required, `request_approval` short-circuits to
approval with no dialog. -/
theorem requestApproval_not_required (host : Host) (mode : ApprovalMode)
    (cmd preview : Value) (d : Bool) (dialogs : List Dialog)
    (hreq : ApprovalManager.requiresApproval mode cmd d = false) :
    ApprovalManager.requestApproval host mode cmd preview d dialogs
      = (true, dialogs) := by
  simp [ApprovalManager.requestApproval, hreq]

/-- C1: `requires_approval` is exactly "mode is preview, or the command is
destructive", and it ignores the command-type argument entirely.
Consequently, inside the host a `command` message under mode `preview`
produces exactly one approval dialog (whenever its preview generation
succeeds), and under mode `destructive` it produces a dialog iff the
command's type is in the destructive set. -/
theorem C1_requires_approval_table (m : ApprovalMode) (t t' : Value) (d : Bool)
    (host : Host) (h : Hou) (st : MessageHandler.HandlerState)
    (command : List (Value × Value)) (p : String)
    (hhou : host.hou = some h)
    (hp : MessageHandler.generatePreview command = .ok p) :
    (ApprovalManager.requiresApproval m t d = (decide (m = .preview) || d))
    ∧ (ApprovalManager.requiresApproval m t d
        = ApprovalManager.requiresApproval m t' d)
    ∧ (st.mode = .preview →
        ∃ r st', MessageHandler.handleCommand host st (commandMsg command)
            = .ok (r, st')
          ∧ st'.dialogs.length = st.dialogs.length + 1)
    ∧ (st.mode = .destructive →
        ∃ r st', MessageHandler.handleCommand host st (commandMsg command)
            = .ok (r, st')
          ∧ st'.dialogs.length = st.dialogs.length
              + (if MessageHandler.isDestructiveCommand command then 1 else 0)) := by
  have hd : asDict (dgetD (commandMsg command) "data" (.map [])) = .ok command := rfl
  refine ⟨by cases m <;> cases d <;> rfl, by cases m <;> rfl, ?_, ?_⟩
  · intro hmode
    have hreq : ApprovalManager.requiresApproval st.mode (dget command "type")
        (MessageHandler.isDestructiveCommand command) = true := by
      rw [hmode]; rfl
    obtain ⟨dlg, hra⟩ := requestApproval_required host h st.mode
      (dget command "type") (.str p) (MessageHandler.isDestructiveCommand command)
      st.dialogs hhou hreq
    simp only [MessageHandler.handleCommand, hd, Except.bind, Bind.bind, hreq,
      if_true, hp, hra]
    cases hch : host.choice st.dialogs.length == 0 <;>
      · simp only [hch, Bool.false_eq_true, if_false, if_true]
        exact ⟨_, _, rfl, by simp⟩
  · intro hmode
    cases hdest : MessageHandler.isDestructiveCommand command with
    | true =>
        have hreq : ApprovalManager.requiresApproval st.mode
            (dget command "type") (MessageHandler.isDestructiveCommand command)
              = true := by
          rw [hmode, hdest]; rfl
        obtain ⟨dlg, hra⟩ := requestApproval_required host h st.mode
          (dget command "type") (.str p)
          (MessageHandler.isDestructiveCommand command) st.dialogs hhou hreq
        simp only [MessageHandler.handleCommand, hd, Except.bind, Bind.bind,
          hreq, if_true, hp, hra]
        cases hch : host.choice st.dialogs.length == 0 <;>
          · simp only [hch, Bool.false_eq_true, if_false, if_true, hdest]
            exact ⟨_, _, rfl, by simp⟩
    | false =>
        have hreq : ApprovalManager.requiresApproval st.mode
            (dget command "type") false = false := by
          rw [hmode]; rfl
        simp only [MessageHandler.handleCommand, hd, Except.bind, Bind.bind,
          hdest, hreq, Bool.false_eq_true, if_false]
        exact ⟨_, _, rfl, by simp⟩

/-- Witness for C1 at mode `auto`, a `delete_node` command, and a host
whose operator cancels every dialog. -/
theorem C1_witness :
    (ApprovalManager.requiresApproval .auto (.str "x") false
        = (decide ((ApprovalMode.auto : ApprovalMode) = .preview) || false))
    ∧ (ApprovalManager.requiresApproval .auto (.str "x") false
        = ApprovalManager.requiresApproval .auto (.str "y") false)
    ∧ ((⟨ExecState.initial, .preview, []⟩ : MessageHandler.HandlerState).mode
          = .preview →
        ∃ r st', MessageHandler.handleCommand hostDeny
            ⟨ExecState.initial, .preview, []⟩
            (commandMsg [(.str "type", .str "delete_node")]) = .ok (r, st')
          ∧ st'.dialogs.length
              = (⟨ExecState.initial, .preview, []⟩ :
                  MessageHandler.HandlerState).dialogs.length + 1)
    ∧ ((⟨ExecState.initial, .preview, []⟩ : MessageHandler.HandlerState).mode
          = .destructive →
        ∃ r st', MessageHandler.handleCommand hostDeny
            ⟨ExecState.initial, .preview, []⟩
            (commandMsg [(.str "type", .str "delete_node")]) = .ok (r, st')
          ∧ st'.dialogs.length
              = (⟨ExecState.initial, .preview, []⟩ :
                  MessageHandler.HandlerState).dialogs.length
                + (if MessageHandler.isDestructiveCommand
                      [(.str "type", .str "delete_node")] then 1 else 0)) :=
  C1_requires_approval_table .auto (.str "x") (.str "y") false hostDeny sampleHou
    ⟨ExecState.initial, .preview, []⟩ [(.str "type", .str "delete_node")]
    "Will delete: None" rfl rfl

/-- C5: for a single `command` message, when approval is required and the
operator denies it, the reply is the fixed "cancelled by user" failure and
the executor state — session state, selection, and the count of `execute`
invocations — is left exactly as it was (the executor is never entered);
when the operator approves, or no approval is required, the reply is the
executor's Result verbatim and its state update is applied. -/
theorem C5_denied_or_delegated (host : Host) (h : Hou)
    (st : MessageHandler.HandlerState) (command : List (Value × Value))
    (p : String) (hhou : host.hou = some h)
    (hp : MessageHandler.generatePreview command = .ok p) :
    (ApprovalManager.requiresApproval st.mode (dget command "type")
        (MessageHandler.isDestructiveCommand command) = true →
      host.choice st.dialogs.length ≠ 0 →
      ∃ dlg, MessageHandler.handleCommand host st (commandMsg command)
        = .ok (cancelledResult, { st with dialogs := st.dialogs ++ [dlg] }))
    ∧ (ApprovalManager.requiresApproval st.mode (dget command "type")
        (MessageHandler.isDestructiveCommand command) = true →
      host.choice st.dialogs.length = 0 →
      ∃ dlg, MessageHandler.handleCommand host st (commandMsg command)
        = .ok ((CommandExecutor.execute host st.exec command).1,
            { st with exec := (CommandExecutor.execute host st.exec command).2,
                      dialogs := st.dialogs ++ [dlg] }))
    ∧ (ApprovalManager.requiresApproval st.mode (dget command "type")
        (MessageHandler.isDestructiveCommand command) = false →
      MessageHandler.handleCommand host st (commandMsg command)
        = .ok ((CommandExecutor.execute host st.exec command).1,
            { st with exec := (CommandExecutor.execute host st.exec command).2 })) := by
  have hd : asDict (dgetD (commandMsg command) "data" (.map [])) = .ok command := rfl
  refine ⟨?_, ?_, ?_⟩
  · intro hreq hch
    obtain ⟨dlg, hra⟩ := requestApproval_required host h st.mode
      (dget command "type") (.str p) (MessageHandler.isDestructiveCommand command)
      st.dialogs hhou hreq
    refine ⟨dlg, ?_⟩
    have hch' : (host.choice st.dialogs.length == 0) = false := by
      simpa using hch
    simp only [MessageHandler.handleCommand, hd, Except.bind, Bind.bind, hreq,
      if_true, hp, hra, hch', Bool.false_eq_true, if_false]
  · intro hreq hch
    obtain ⟨dlg, hra⟩ := requestApproval_required host h st.mode
      (dget command "type") (.str p) (MessageHandler.isDestructiveCommand command)
      st.dialogs hhou hreq
    refine ⟨dlg, ?_⟩
    have hch' : (host.choice st.dialogs.length == 0) = true := by
      simpa using hch
    simp only [MessageHandler.handleCommand, hd, Except.bind, Bind.bind, hreq,
      if_true, hp, hra, hch']
  · intro hreq
    simp only [MessageHandler.handleCommand, hd, Except.bind, Bind.bind, hreq,
      Bool.false_eq_true, if_false]

/-- Witness for C5: the operator denying a destructive `delete_node` under
mode `preview` yields the cancellation Result with the executor state
intact, and a non-destructive `get_selection` under mode `auto` goes
straight to the executor. -/
theorem C5_witness :
    (∃ dlg, MessageHandler.handleCommand hostDeny
        ⟨ExecState.initial, .preview, []⟩
        (commandMsg [(.str "type", .str "delete_node")])
      = .ok (cancelledResult,
          { (⟨ExecState.initial, .preview, []⟩ : MessageHandler.HandlerState)
              with dialogs := [] ++ [dlg] }))
    ∧ (MessageHandler.handleCommand hostDeny ⟨ExecState.initial, .auto, []⟩
        (commandMsg [(.str "type", .str "get_selection")])
      = .ok ((CommandExecutor.execute hostDeny ExecState.initial
              [(.str "type", .str "get_selection")]).1,
          { (⟨ExecState.initial, .auto, []⟩ : MessageHandler.HandlerState)
              with exec := (CommandExecutor.execute hostDeny ExecState.initial
                [(.str "type", .str "get_selection")]).2 })) := by
  constructor
  · exact (C5_denied_or_delegated hostDeny sampleHou
      ⟨ExecState.initial, .preview, []⟩ [(.str "type", .str "delete_node")]
      "Will delete: None" rfl rfl).1 rfl (by decide)
  · exact (C5_denied_or_delegated hostDeny sampleHou
      ⟨ExecState.initial, .auto, []⟩ [(.str "type", .str "get_selection")]
      "Will execute: get_selection" rfl rfl).2.2 rfl

/-- C7 counterexample: `set_session_state` with no `key` field does not
return a failure Result — it succeeds, storing the value under the `None`
key (`command.get('key')`), with no validation of the missing required
field. -/
theorem C7_counterexample :
    (CommandExecutor.execute hostOutside ExecState.initial
        [(.str "type", .str "set_session_state"), (.str "value", .int 1)]).1
      = successData (.map [(.str "key", .nil), (.str "value", .int 1)])
    ∧ (CommandExecutor.execute hostOutside ExecState.initial
        [(.str "type", .str "set_session_state"), (.str "value", .int 1)]).1.success
      = true
    ∧ (CommandExecutor.execute hostOutside ExecState.initial
        [(.str "type", .str "set_session_state"), (.str "value", .int 1)]).2.sessionState
      = [(Value.nil, .int 1)] :=
  ⟨rfl, rfl, rfl⟩

/-- C7 amended: the handlers do not pre-validate required fields.  A
missing field is read as `None` by a defaulting `dict.get` (never an
unguarded lookup error): `set_session_state` with no key succeeds and
stores the value under the `None` key, while `create_node` with no
`node_type` passes the `None` straight into the host `createNode` call,
whose exception `execute` then catches into a failure Result. -/
theorem C7_amended_no_validation (host : Host) (es : ExecState) (v : Value)
    (hou : Hou) (parent : Node) (e : String)
    (hhou : host.hou = some hou)
    (hnode : hou.node (.str "/obj") = .ok (some parent))
    (hcreate : hou.createNode parent .nil .nil = .error e) :
    CommandExecutor.execute host es
        [(.str "type", .str "set_session_state"), (.str "value", v)]
      = (successData (.map [(.str "key", .nil), (.str "value", v)]),
         { es with sessionState := dictSet es.sessionState .nil v,
                   execCount := es.execCount + 1 })
    ∧ CommandExecutor.execute host es [(.str "type", .str "create_node")]
      = (exnResult e, { es with execCount := es.execCount + 1 }) := by
  constructor
  · rfl
  · have hcn : CommandExecutor.execCreateNode (some hou)
        [(.str "type", .str "create_node")] = .error e := by
      unfold CommandExecutor.execCreateNode
      simp only []
      rw [show (dgetD [(Value.str "type", Value.str "create_node")] "parent"
        (Value.str "/obj")) = Value.str "/obj" from rfl]
      rw [hnode]
      simp only [Bind.bind, Except.bind]
      rw [show (dget [(Value.str "type", Value.str "create_node")] "node_type")
        = Value.nil from rfl]
      rw [show (dget [(Value.str "type", Value.str "create_node")] "name")
        = Value.nil from rfl]
      rw [hcreate]
    have hex : CommandExecutor.execute host es [(.str "type", .str "create_node")]
        = match (CommandExecutor.execCreateNode host.hou
            [(.str "type", .str "create_node")]).map
              (fun r => (r, { es with execCount := es.execCount + 1 })) with
          | .ok res => res
          | .error err => (exnResult err, { es with execCount := es.execCount + 1 }) :=
      rfl
    rw [hex, hhou, hcn]
    rfl

/-- Witness for C7's amended claim at a concrete failing `createNode`. -/
theorem C7_amended_witness :
    CommandExecutor.execute hostCreateFails ExecState.initial
        [(.str "type", .str "set_session_state"), (.str "value", .int 7)]
      = (successData (.map [(.str "key", .nil), (.str "value", .int 7)]),
         { ExecState.initial with
             sessionState := dictSet ExecState.initial.sessionState .nil (.int 7),
             execCount := ExecState.initial.execCount + 1 })
    ∧ CommandExecutor.execute hostCreateFails ExecState.initial
        [(.str "type", .str "create_node")]
      = (exnResult "createNode failed",
         { ExecState.initial with execCount := ExecState.initial.execCount + 1 }) :=
  C7_amended_no_validation hostCreateFails ExecState.initial (.int 7)
    houCreateFails objNode "createNode failed" rfl rfl rfl

theorem replicate_getElem? {α : Type} (n i : Nat) (a : α) (h : i < n) :
    (List.replicate n a)[i]? = some a := by
  induction n generalizing i with
  | zero => omega
  | succ n ih =>
      cases i with
      | zero => simp [List.replicate]
      | succ i => simpa [List.replicate] using ih i (by omega)

/-- Inside the host, one `request_approval` call either needed no approval
(no dialog, approved) or showed exactly one dialog. -/
theorem requestApproval_cases (host : Host) (h : Hou) (mode : ApprovalMode)
    (cmd preview : Value) (d : Bool) (dialogs : List Dialog)
    (hhou : host.hou = some h) :
    (ApprovalManager.requiresApproval mode cmd d = false
      ∧ ApprovalManager.requestApproval host mode cmd preview d dialogs
          = (true, dialogs))
    ∨ (ApprovalManager.requiresApproval mode cmd d = true
      ∧ ∃ dlg, ApprovalManager.requestApproval host mode cmd preview d dialogs
          = (host.choice dialogs.length == 0, dialogs ++ [dlg])) := by
  cases hreq : ApprovalManager.requiresApproval mode cmd d
  · exact Or.inl ⟨rfl,
      requestApproval_not_required host mode cmd preview d dialogs hreq⟩
  · exact Or.inr ⟨rfl,
      requestApproval_required host h mode cmd preview d dialogs hhou hreq⟩

theorem promptsUpTo_cons (mode : ApprovalMode) (it : ApprovalManager.BatchItem)
    (rest : List ApprovalManager.BatchItem) (n : Nat) :
    promptsUpTo mode (it :: rest) (n + 1)
      = (if ApprovalManager.requiresApproval mode it.description it.isDestructive
          then 1 else 0) + promptsUpTo mode rest n := by
  unfold promptsUpTo
  rw [List.take_succ_cons, List.filter_cons]
  cases hreq : ApprovalManager.requiresApproval mode it.description it.isDestructive with
  | true => simp [hreq]; omega
  | false => simp [hreq]

/-- The spine of C3: in the review-each walk, if position `j` holds the
first denial, then the result covers every item, every position from `j` on
is denied, and the dialogs shown are exactly one per approval-requiring
item among the first `j+1` (the reviewed ones) — no further prompts after
the denial, and no reviewed item that required approval was skipped. -/
theorem reviewEach_first_denial (host : Host) (h : Hou) (mode : ApprovalMode)
    (hhou : host.hou = some h) :
    ∀ (items : List ApprovalManager.BatchItem) (log : List Dialog) (j : Nat),
      ((ApprovalManager.reviewEachLoop host mode items log).1)[j]? = some false →
      (∀ i, i < j →
        ((ApprovalManager.reviewEachLoop host mode items log).1)[i]? = some true) →
      (ApprovalManager.reviewEachLoop host mode items log).1.length = items.length
      ∧ (∀ i, j ≤ i → i < items.length →
          ((ApprovalManager.reviewEachLoop host mode items log).1)[i]? = some false)
      ∧ (ApprovalManager.reviewEachLoop host mode items log).2.length
          = log.length + promptsUpTo mode items (j + 1)
  | [], log, j => by
      intro hj _
      simp [ApprovalManager.reviewEachLoop] at hj
  | item :: rest, log, j => by
      intro hj hbefore
      rcases hra : ApprovalManager.requestApproval host mode item.description
          item.preview item.isDestructive log with ⟨approved, log₁⟩
      have hlog₁ : log₁.length
          = log.length + (if ApprovalManager.requiresApproval mode
              item.description item.isDestructive then 1 else 0)
          ∨ (approved = true
            ∧ ApprovalManager.requiresApproval mode item.description
                item.isDestructive = false
            ∧ log₁ = log) := by
        rcases requestApproval_cases host h mode item.description item.preview
            item.isDestructive log hhou with ⟨hreq, heq⟩ | ⟨hreq, dlg, heq⟩
        · rw [hra] at heq
          cases heq
          exact Or.inr ⟨rfl, hreq, rfl⟩
        · rw [hra] at heq
          cases heq
          exact Or.inl (by simp [hreq])
      cases approved with
      | true =>
          have hloop : ApprovalManager.reviewEachLoop host mode (item :: rest) log
              = (true :: (ApprovalManager.reviewEachLoop host mode rest log₁).1,
                 (ApprovalManager.reviewEachLoop host mode rest log₁).2) := by
            simp [ApprovalManager.reviewEachLoop, hra]
          cases j with
          | zero =>
              rw [hloop] at hj
              simp at hj
          | succ j' =>
              rw [hloop] at hj hbefore ⊢
              simp only [List.getElem?_cons_succ] at hj
              have hbefore' : ∀ i, i < j' →
                  ((ApprovalManager.reviewEachLoop host mode rest log₁).1)[i]?
                    = some true := by
                intro i hi
                have := hbefore (i + 1) (by omega)
                simpa using this
              obtain ⟨hlen, hafter, hcount⟩ :=
                reviewEach_first_denial host h mode hhou rest log₁ j' hj hbefore'
              refine ⟨by simp [hlen], ?_, ?_⟩
              · intro i hji hilen
                cases i with
                | zero => omega
                | succ i' =>
                    simp only [List.getElem?_cons_succ]
                    exact hafter i' (by omega) (by simpa using hilen)
              · rw [promptsUpTo_cons]
                rcases hlog₁ with hl | ⟨_, hreq, hl⟩
                · rw [hcount, hl]; omega
                · rw [hcount, hl, hreq]; simp
      | false =>
          have hloop : ApprovalManager.reviewEachLoop host mode (item :: rest) log
              = (false :: List.replicate rest.length false, log₁) := by
            simp [ApprovalManager.reviewEachLoop, hra]
          have hj0 : j = 0 := by
            by_contra hne
            have := hbefore 0 (by omega)
            rw [hloop] at this
            simp at this
          subst hj0
          rw [hloop]
          have hreq : ApprovalManager.requiresApproval mode item.description
              item.isDestructive = true := by
            rcases requestApproval_cases host h mode item.description item.preview
                item.isDestructive log hhou with ⟨_, heq⟩ | ⟨hreq, _, _⟩
            · rw [hra] at heq; cases heq
            · exact hreq
          refine ⟨by simp, ?_, ?_⟩
          · intro i _ hilen
            cases i with
            | zero => simp
            | succ i' =>
                simp only [List.getElem?_cons_succ]
                exact replicate_getElem? rest.length i' false (by simpa using hilen)
          · rcases hlog₁ with hl | ⟨hap, _, _⟩
            · rw [hl, hreq]
              simp [promptsUpTo, List.take, List.filter, hreq]
            · cases hap
  termination_by items _ _ => items.length

/-- Picking "Review Each" (button 1) on the batch dialog hands the list to
the review-each walk, with the batch dialog itself logged first. -/
theorem approveBatch_review_each (host : Host) (h : Hou) (mode : ApprovalMode)
    (items : List ApprovalManager.BatchItem) (dialogs : List Dialog)
    (hhou : host.hou = some h)
    (hch : host.batchChoice dialogs.length = 1) :
    ∃ dlg, ApprovalManager.approveBatch host mode items dialogs
      = ApprovalManager.reviewEachLoop host mode items (dialogs ++ [dlg]) := by
  refine ⟨⟨"AI Agent Batch Request (" ++ toString items.length
    ++ " operations):\n\n" ++ String.intercalate "\n"
      (items.enum.map (fun p => toString (p.1 + 1) ++ ". " ++ p.2.description.pyStr))
    ++ "\n\nExecute all?", true⟩, ?_⟩
  simp [ApprovalManager.approveBatch, hhou, hch]

/-- C3: choosing "Review Each" for a batch walks the items in order; when
position `j` holds the first denial, every item gets a decision, every item
from `j` on is denied with no further prompting, and the per-item dialogs
shown are exactly one for each approval-requiring item among the `j+1`
reviewed ones — in particular at most `j+1` prompts, and no reviewed item
that required approval was skipped past the UI. -/
theorem C3_review_each_first_denial (host : Host) (h : Hou)
    (mode : ApprovalMode) (items : List ApprovalManager.BatchItem)
    (dialogs : List Dialog) (j : Nat)
    (hhou : host.hou = some h)
    (hreview : host.batchChoice dialogs.length = 1)
    (hj : ((ApprovalManager.approveBatch host mode items dialogs).1)[j]?
        = some false)
    (hbefore : ∀ i, i < j →
      ((ApprovalManager.approveBatch host mode items dialogs).1)[i]? = some true) :
    (ApprovalManager.approveBatch host mode items dialogs).1.length = items.length
    ∧ (∀ i, j ≤ i → i < items.length →
        ((ApprovalManager.approveBatch host mode items dialogs).1)[i]? = some false)
    ∧ (ApprovalManager.approveBatch host mode items dialogs).2.length
        = dialogs.length + 1 + promptsUpTo mode items (j + 1)
    ∧ promptsUpTo mode items (j + 1) ≤ j + 1 := by
  obtain ⟨dlg, heq⟩ := approveBatch_review_each host h mode items dialogs hhou hreview
  rw [heq] at hj hbefore ⊢
  obtain ⟨hlen, hafter, hcount⟩ :=
    reviewEach_first_denial host h mode hhou items (dialogs ++ [dlg]) j hj hbefore
  refine ⟨hlen, hafter, ?_, ?_⟩
  · rw [hcount]
    simp
  · calc promptsUpTo mode items (j + 1)
        ≤ (items.take (j + 1)).length := List.length_filter_le _ _
      _ ≤ j + 1 := by simp [List.length_take]

/-- The two-destructive-item batch used by the C3 witness. -/
def reviewItems : List ApprovalManager.BatchItem :=
  [{ type := .str "delete_node", description := .str "Delete node: /obj/a",
     preview := .str "Will delete: /obj/a", isDestructive := true },
   { type := .str "create_node", description := .str "Create geo node",
     preview := .str "Will create: /obj/b (geo)", isDestructive := true }]

/-- Witness for C3: an operator who picks Review Each and then cancels the
first destructive item denies both items after exactly one per-item prompt. -/
theorem C3_witness :
    (ApprovalManager.approveBatch hostDeny .auto reviewItems []).1.length
        = reviewItems.length
    ∧ (∀ i, 0 ≤ i → i < reviewItems.length →
        ((ApprovalManager.approveBatch hostDeny .auto reviewItems []).1)[i]?
          = some false)
    ∧ (ApprovalManager.approveBatch hostDeny .auto reviewItems []).2.length
        = ([] : List Dialog).length + 1 + promptsUpTo .auto reviewItems (0 + 1)
    ∧ promptsUpTo .auto reviewItems (0 + 1) ≤ 0 + 1 :=
  C3_review_each_first_denial hostDeny sampleHou .auto reviewItems [] 0
    rfl rfl rfl (fun i hi => absurd hi (Nat.not_lt_zero i))

/-- The review-each walk always decides every item of the batch. -/
theorem reviewEach_length (host : Host) (mode : ApprovalMode) :
    ∀ (items : List ApprovalManager.BatchItem) (log : List Dialog),
      (ApprovalManager.reviewEachLoop host mode items log).1.length = items.length
  | [], _ => rfl
  | item :: rest, log => by
      rcases hra : ApprovalManager.requestApproval host mode item.description
          item.preview item.isDestructive log with ⟨approved, log₁⟩
      cases approved with
      | true =>
          simp [ApprovalManager.reviewEachLoop, hra,
            reviewEach_length host mode rest log₁]
      | false =>
          simp [ApprovalManager.reviewEachLoop, hra]

/-- `approve_batch` always returns one decision per command. -/
theorem approveBatch_length (host : Host) (mode : ApprovalMode)
    (items : List ApprovalManager.BatchItem) (dialogs : List Dialog) :
    (ApprovalManager.approveBatch host mode items dialogs).1.length
      = items.length := by
  rcases hhou : host.hou with _ | h
  · simp [ApprovalManager.approveBatch, hhou]
  · simp only [ApprovalManager.approveBatch, hhou]
    split
    · simp
    · split
      · simp
      · exact reviewEach_length host mode items _

/-- Each batch execution slot is either the cancellation Result or the
executor's Result for that slot's command (at the state threaded to it). -/
theorem runBatchExec_getElem? (host : Host) :
    ∀ (pairs : List (List (Value × Value) × Bool)) (es : ExecState) (i : Nat),
      i < pairs.length →
      ∃ pair, pairs[i]? = some pair
        ∧ (((MessageHandler.runBatchExec host es pairs).1)[i]?
              = some cancelledResult
           ∨ ∃ es', ((MessageHandler.runBatchExec host es pairs).1)[i]?
              = some (CommandExecutor.execute host es' pair.1).1)
  | [], _, i, hi => by simp at hi
  | (cmd, approved) :: rest, es, 0, _ => by
      cases approved with
      | true =>
          refine ⟨(cmd, true), by simp, Or.inr ⟨es, ?_⟩⟩
          simp [MessageHandler.runBatchExec]
      | false =>
          refine ⟨(cmd, false), by simp, Or.inl ?_⟩
          simp [MessageHandler.runBatchExec]
  | (cmd, approved) :: rest, es, i + 1, hi => by
      have hi' : i < rest.length := by simpa using hi
      cases approved with
      | true =>
          obtain ⟨pair, hp, hres⟩ := runBatchExec_getElem? host rest
            (CommandExecutor.execute host es cmd).2 i hi'
          exact ⟨pair, by simpa using hp, by
            simpa [MessageHandler.runBatchExec] using hres⟩
      | false =>
          obtain ⟨pair, hp, hres⟩ := runBatchExec_getElem? host rest es i hi'
          exact ⟨pair, by simpa using hp, by
            simpa [MessageHandler.runBatchExec] using hres⟩

/-- The batch execution loop produces one Result per zipped slot. -/
theorem runBatchExec_length (host : Host) :
    ∀ (pairs : List (List (Value × Value) × Bool)) (es : ExecState),
      (MessageHandler.runBatchExec host es pairs).1.length = pairs.length
  | [], _ => rfl
  | (cmd, approved) :: rest, es => by
      cases approved with
      | true =>
          simp [MessageHandler.runBatchExec,
            runBatchExec_length host rest (CommandExecutor.execute host es cmd).2]
      | false =>
          simp [MessageHandler.runBatchExec, runBatchExec_length host rest es]

/-- The batch comprehension keeps length and order: item `i` was parsed
from command `i`. -/
theorem parseBatchItems_spec :
    ∀ (cmds : List Value)
      (parsed : List (List (Value × Value) × ApprovalManager.BatchItem)),
      MessageHandler.parseBatchItems cmds = .ok parsed →
      parsed.length = cmds.length
      ∧ ∀ i, i < parsed.length →
          ∃ pc, parsed[i]? = some pc ∧ cmds[i]? = some (.map pc.1)
  | [], parsed, hp => by
      cases hp
      exact ⟨rfl, by intro i hi; simp at hi⟩
  | cmdV :: rest, parsed, hp => by
      rcases hd : asDict cmdV with e | cmd <;>
          rw [MessageHandler.parseBatchItems, hd] at hp <;>
        simp only [Bind.bind, Except.bind] at hp
      · cases hp
      rcases hprev : MessageHandler.generatePreview cmd with e | p <;>
          rw [hprev] at hp <;>
        simp only [Bind.bind, Except.bind] at hp
      · cases hp
      rcases hrest : MessageHandler.parseBatchItems rest with e | restItems <;>
          rw [hrest] at hp <;>
        simp only [Bind.bind, Except.bind] at hp
      · cases hp
      cases hp
      obtain ⟨hlen, hidx⟩ := parseBatchItems_spec rest restItems hrest
      have hcmd : cmdV = .map cmd := by
        cases cmdV <;> simp [asDict] at hd
        rw [hd]
      constructor
      · simp [hlen]
      · intro i hi
        cases i with
        | zero => exact ⟨_, List.getElem?_cons_zero, by simp [hcmd]⟩
        | succ i' =>
            obtain ⟨pc, hpc, hci⟩ := hidx i' (by simpa using hi)
            exact ⟨pc, by simpa using hpc, by simpa using hci⟩

/-- Zipping preserves positions. -/
theorem zip_getElem? {α β : Type} :
    ∀ (as : List α) (bs : List β) (i : Nat) (a : α) (b : β),
      as[i]? = some a → bs[i]? = some b → (as.zip bs)[i]? = some (a, b)
  | [], _, i, _, _, ha, _ => by simp at ha
  | _ :: _, [], i, _, _, _, hb => by simp at hb
  | a' :: as, b' :: bs, 0, a, b, ha, hb => by
      simp at ha hb
      simp [List.zip_cons_cons, ha, hb]
  | a' :: as, b' :: bs, i + 1, a, b, ha, hb => by
      simp only [List.getElem?_cons_succ] at ha hb
      simpa [List.zip_cons_cons] using zip_getElem? as bs i a b ha hb

/-- C2: a batch of N well-formed commands replies
`{'success': True, 'data': {'results': [...]}}` with the outer success
unconditional, and the results list has exactly N entries, the i-th being
the Result of the i-th input command — either its execution Result (at the
executor state threaded to that slot) or the fixed cancellation Result for
a denied slot. -/
theorem C2_batch_reply (host : Host) (st : MessageHandler.HandlerState)
    (cmds : List Value)
    (parsed : List (List (Value × Value) × ApprovalManager.BatchItem))
    (hparse : MessageHandler.parseBatchItems cmds = .ok parsed) :
    ∃ r st', MessageHandler.handleBatch host st (batchMsg cmds) = .ok (r, st')
    ∧ r.success = true
    ∧ ∃ rs : List Result,
        r.data = some (.map [(.str "results", .list (rs.map Result.toValue))])
        ∧ rs.length = cmds.length
        ∧ ∀ i, i < rs.length →
            ∃ ci, cmds[i]? = some (Value.map ci)
            ∧ (rs[i]? = some cancelledResult
               ∨ ∃ es', rs[i]? = some (CommandExecutor.execute host es' ci).1) := by
  obtain ⟨hplen, hpidx⟩ := parseBatchItems_spec cmds parsed hparse
  have hd : asDict (dgetD (batchMsg cmds) "data" (.map []))
      = .ok [(.str "commands", .list cmds)] := rfl
  have hl : asList (dgetD [(.str "commands", .list cmds)] "commands" (.list []))
      = .ok cmds := rfl
  have halen : (ApprovalManager.approveBatch host st.mode
      (parsed.map (·.2)) st.dialogs).1.length = parsed.length := by
    rw [approveBatch_length]; simp
  have hzlen : ((parsed.map (·.1)).zip
      (ApprovalManager.approveBatch host st.mode (parsed.map (·.2)) st.dialogs).1).length
      = parsed.length := by
    simp [List.length_zip, halen]
  have hrslen : (MessageHandler.runBatchExec host st.exec ((parsed.map (·.1)).zip
      (ApprovalManager.approveBatch host st.mode (parsed.map (·.2)) st.dialogs).1)).1.length
      = parsed.length := by
    rw [runBatchExec_length, hzlen]
  simp only [MessageHandler.handleBatch, hd, hl, hparse, Bind.bind, Except.bind]
  refine ⟨_, _, rfl, rfl, ⟨_, rfl, ?_, ?_⟩⟩
  · rw [hrslen, hplen]
  · intro i hi
    have hip : i < parsed.length := by rw [hrslen] at hi; exact hi
    have hizip : i < ((parsed.map (·.1)).zip
        (ApprovalManager.approveBatch host st.mode (parsed.map (·.2)) st.dialogs).1).length := by
      rw [hzlen]; exact hip
    obtain ⟨pc, hpc, hci⟩ := hpidx i hip
    obtain ⟨pair, hpair, hres⟩ := runBatchExec_getElem? host _ st.exec i hizip
    obtain ⟨b, hb⟩ : ∃ b, ((ApprovalManager.approveBatch host st.mode
        (parsed.map (·.2)) st.dialogs).1)[i]? = some b :=
      ⟨_, List.getElem?_eq_getElem (by rw [halen]; exact hip)⟩
    have hmap : ((parsed.map (·.1)))[i]? = some pc.1 := by
      simp [List.getElem?_map, hpc]
    have hz := zip_getElem? (parsed.map (·.1))
      ((ApprovalManager.approveBatch host st.mode (parsed.map (·.2)) st.dialogs).1)
      i pc.1 b hmap hb
    rw [hz] at hpair
    cases hpair
    refine ⟨pc.1, hci, ?_⟩
    rcases hres with hres | ⟨es', hres⟩
    · exact Or.inl hres
    · exact Or.inr ⟨es', hres⟩

/-- The parsed form of the C2 witness's one-command batch. -/
def pingBatchParsed : List (List (Value × Value) × ApprovalManager.BatchItem) :=
  [([(.str "type", .str "ping")],
    { type := .str "ping", description := .str "ping",
      preview := .str "Will execute: ping", isDestructive := false })]

/-- Witness for C2 at a concrete one-command batch outside the host. -/
theorem C2_witness :
    ∃ r st', MessageHandler.handleBatch hostOutside
        MessageHandler.HandlerState.initial
        (batchMsg [.map [(.str "type", .str "ping")]]) = .ok (r, st')
    ∧ r.success = true
    ∧ ∃ rs : List Result,
        r.data = some (.map [(.str "results", .list (rs.map Result.toValue))])
        ∧ rs.length = [Value.map [(.str "type", .str "ping")]].length
        ∧ ∀ i, i < rs.length →
            ∃ ci, [Value.map [(.str "type", .str "ping")]][i]? = some (Value.map ci)
            ∧ (rs[i]? = some cancelledResult
               ∨ ∃ es', rs[i]? = some (CommandExecutor.execute hostOutside es' ci).1) :=
  C2_batch_reply hostOutside MessageHandler.HandlerState.initial
    [.map [(.str "type", .str "ping")]] pingBatchParsed rfl

/-- A mapped handler outcome re-attaches the given executor state. -/
theorem map_pair_ok {X : Except String Result} {es₁ : ExecState}
    {res : Result × ExecState}
    (h : Except.map (fun r => (r, es₁)) X = .ok res) : res.2 = es₁ := by
  cases X with
  | error e => simp [Except.map] at h
  | ok r =>
      simp [Except.map] at h
      rw [← h]

set_option maxHeartbeats 1000000 in
/-- Every command whose type is not `set_session_state` or `execute_python`
leaves the session state exactly as it found it — whatever the host oracle
does and whether the handler succeeds, fails, or raises. -/
theorem execute_preserves_sessionState (host : Host) (es : ExecState)
    (c : List (Value × Value))
    (h1 : dget c "type" ≠ Value.str "set_session_state")
    (h2 : dget c "type" ≠ Value.str "execute_python") :
    (CommandExecutor.execute host es c).2.sessionState = es.sessionState := by
  have hb1 : Value.beq (dget c "type") (Value.str "set_session_state") = false := by
    cases hbe : Value.beq (dget c "type") (Value.str "set_session_state")
    · rfl
    · exact absurd (Value.beq_sound hbe) h1
  have hb2 : Value.beq (dget c "type") (Value.str "execute_python") = false := by
    cases hbe : Value.beq (dget c "type") (Value.str "execute_python")
    · rfl
    · exact absurd (Value.beq_sound hbe) h2
  unfold CommandExecutor.execute CommandExecutor.attempt
  simp only []
  simp only [hb1, hb2, Bool.false_eq_true, if_false]
  split
  case h_2 e heq => rfl
  case h_1 res heq =>
    by_cases g1 : Value.beq (dget c "type") (Value.str "create_node") = true
    · rw [if_pos g1] at heq; rw [map_pair_ok heq]
    rw [if_neg g1] at heq
    by_cases g2 : Value.beq (dget c "type") (Value.str "delete_node") = true
    · rw [if_pos g2] at heq; rw [map_pair_ok heq]
    rw [if_neg g2] at heq
    by_cases g3 : Value.beq (dget c "type") (Value.str "set_parameter") = true
    · rw [if_pos g3] at heq; rw [map_pair_ok heq]
    rw [if_neg g3] at heq
    by_cases g4 : Value.beq (dget c "type") (Value.str "get_parameter") = true
    · rw [if_pos g4] at heq; rw [map_pair_ok heq]
    rw [if_neg g4] at heq
    by_cases g5 : Value.beq (dget c "type") (Value.str "get_selection") = true
    · rw [if_pos g5] at heq
      cases heq
      rcases hhou : host.hou with _ | hou <;>
        simp [CommandExecutor.execGetSelection, hhou]
    rw [if_neg g5] at heq
    by_cases g6 : Value.beq (dget c "type") (Value.str "select_nodes") = true
    · rw [if_pos g6] at heq; rw [map_pair_ok heq]
    rw [if_neg g6] at heq
    by_cases g7 : Value.beq (dget c "type") (Value.str "get_node_info") = true
    · rw [if_pos g7] at heq; rw [map_pair_ok heq]
    rw [if_neg g7] at heq
    by_cases g8 : Value.beq (dget c "type") (Value.str "save_scene") = true
    · rw [if_pos g8] at heq; rw [map_pair_ok heq]
    rw [if_neg g8] at heq
    by_cases g9 : Value.beq (dget c "type") (Value.str "load_scene") = true
    · rw [if_pos g9] at heq; rw [map_pair_ok heq]
    rw [if_neg g9] at heq
    by_cases g10 : Value.beq (dget c "type") (Value.str "get_session_state") = true
    · rw [if_pos g10] at heq; rw [map_pair_ok heq]
    rw [if_neg g10] at heq
    cases heq
    rfl

/-- An `execute_python` command whose snippet leaves the session-state
contents alone (at every state it could run against) preserves the session
state, as does any command that is not `set_session_state`. -/
theorem execute_preserves_sessionState_nonmut (host : Host) (es : ExecState)
    (c : List (Value × Value))
    (h1 : dget c "type" ≠ Value.str "set_session_state")
    (h2 : dget c "type" = Value.str "execute_python" →
      ∀ hou s, host.hou = some hou →
        (hou.execPython (dget c "code") s).1 = s) :
    (CommandExecutor.execute host es c).2.sessionState = es.sessionState := by
  by_cases hty : dget c "type" = Value.str "execute_python"
  · unfold CommandExecutor.execute CommandExecutor.attempt
    simp only []
    rw [hty]
    rw [if_neg (by decide), if_neg (by decide), if_neg (by decide),
      if_neg (by decide), if_neg (by decide), if_neg (by decide),
      if_neg (by decide), if_pos (by decide)]
    simp only []
    unfold CommandExecutor.execExecutePython
    cases hhou : host.hou with
    | none => rfl
    | some hou =>
        simp only []
        have hns := h2 hty hou
          ({ es with execCount := es.execCount + 1 }).sessionState hhou
        rcases hx : hou.execPython (dget c "code")
            ({ es with execCount := es.execCount + 1 }).sessionState
          with ⟨ns, out⟩
        rw [hx] at hns
        cases out <;> simp [hx, hns]
  · exact execute_preserves_sessionState host es c h1 hty

/-- Session state survives any run of commands that contains no
`set_session_state` and no `execute_python` with a state-mutating
snippet. -/
theorem runCommands_preserves (host : Host) :
    ∀ (mids : List (List (Value × Value))) (es : ExecState),
      (∀ c ∈ mids, dget c "type" ≠ Value.str "set_session_state"
        ∧ (dget c "type" = Value.str "execute_python" →
            ∀ hou s, host.hou = some hou →
              (hou.execPython (dget c "code") s).1 = s)) →
      (runCommands host es mids).sessionState = es.sessionState
  | [], _, _ => rfl
  | c :: cs, es, h => by
      rw [runCommands,
        runCommands_preserves host cs _ (fun c' hc' => h c' (by simp [hc']))]
      exact execute_preserves_sessionState_nonmut host es c (h c (by simp)).1
        (h c (by simp)).2

/-- Executing `set_session_state` for a hashable key stores the value. -/
theorem execute_setStateCmd (host : Host) (es : ExecState) (k v : Value)
    (hk : k.hashable = true) :
    CommandExecutor.execute host es (setStateCmd k v)
      = (successData (.map [(.str "key", k), (.str "value", v)]),
         { es with sessionState := dictSet es.sessionState k v,
                   execCount := es.execCount + 1 }) := by
  have hred : CommandExecutor.execute host es (setStateCmd k v)
      = match CommandExecutor.execSetSessionState
            { es with execCount := es.execCount + 1 } (setStateCmd k v) with
        | .ok res => res
        | .error e => (exnResult e, { es with execCount := es.execCount + 1 }) :=
    rfl
  rw [hred]
  unfold CommandExecutor.execSetSessionState
  rw [show dget (setStateCmd k v) "key" = k from rfl,
    show dget (setStateCmd k v) "value" = v from rfl]
  simp [hk]

/-- Executing `get_session_state` for a hashable key reads the state: the
single-key reply for a truthy key, the whole-state reply for a falsy one. -/
theorem execute_getStateCmd (host : Host) (es : ExecState) (k : Value)
    (hk : k.hashable = true) :
    CommandExecutor.execute host es (getStateCmd k)
      = (successData (if k.truthy then
            .map [(.str "key", k),
                  (.str "value", (vlookup es.sessionState k).getD .nil)]
          else .map [(.str "state", .map es.sessionState)]),
         { es with execCount := es.execCount + 1 }) := by
  have hred : CommandExecutor.execute host es (getStateCmd k)
      = match (CommandExecutor.execGetSessionState
            { es with execCount := es.execCount + 1 } (getStateCmd k)).map
            (fun r => (r, { es with execCount := es.execCount + 1 })) with
        | .ok res => res
        | .error e => (exnResult e, { es with execCount := es.execCount + 1 }) :=
    rfl
  rw [hred]
  unfold CommandExecutor.execGetSessionState
  rw [show dget (getStateCmd k) "key" = k from rfl]
  cases ht : k.truthy <;> simp [ht, hk, Except.map]

/-- C9 (amended): a `set_session_state` for hashable key `k` followed —
after any number of intervening commands, none of which is a session-state
command or an `execute_python` whose snippet mutates the session-state dict
(i.e. whose exec effect changes the dict contents at some state) — by a
`get_session_state` for `k` on the same executor instance yields a success
Result whose data carries `v`. The executor is shared by all connections of
the server's lifetime, so the intervening commands model traffic from any
number of distinct connections. -/
theorem C9_amended_session_state_persists (host : Host) (es : ExecState)
    (k v : Value) (mids : List (List (Value × Value)))
    (hk : k.hashable = true)
    (hmids : ∀ c ∈ mids, dget c "type" ≠ Value.str "set_session_state"
        ∧ dget c "type" ≠ Value.str "get_session_state"
        ∧ (dget c "type" = Value.str "execute_python" →
            ∀ hou s, host.hou = some hou →
              (hou.execPython (dget c "code") s).1 = s)) :
    dataRetrieves
      (CommandExecutor.execute host
        (runCommands host
          (CommandExecutor.execute host es (setStateCmd k v)).2 mids)
        (getStateCmd k)).1 k v := by
  have hpres : (runCommands host
      (CommandExecutor.execute host es (setStateCmd k v)).2 mids).sessionState
      = dictSet es.sessionState k v := by
    rw [runCommands_preserves host mids _
      (fun c hc => ⟨(hmids c hc).1, (hmids c hc).2.2⟩)]
    rw [execute_setStateCmd host es k v hk]
  rw [execute_getStateCmd host _ k hk]
  unfold dataRetrieves
  cases ht : k.truthy
  · simp only [ht, Bool.false_eq_true, if_false]
    refine ⟨rfl, Or.inr ?_⟩
    show vlookup (runCommands host
      (CommandExecutor.execute host es (setStateCmd k v)).2 mids).sessionState
        k = some v
    rw [hpres]
    exact vlookup_dictSet_self es.sessionState k v hk
  · simp only [ht, if_true]
    refine ⟨rfl, Or.inl ⟨rfl, ?_⟩⟩
    show some ((vlookup (runCommands host
      (CommandExecutor.execute host es (setStateCmd k v)).2 mids).sessionState
        k).getD .nil) = some v
    rw [hpres, vlookup_dictSet_self es.sessionState k v hk]
    rfl

/-- A host whose `execute_python` snippet clears the session-state dict
(the exec namespace exposes it, e.g. `session_state.clear()`). -/
def houPyClear : Hou :=
  { sampleHou with execPython := fun _ _ => ([], .ok .nil) }

/-- The in-Houdini host running the clearing snippet. -/
def hostPyClear : Host :=
  { hou := some houPyClear, choice := fun _ => 0, batchChoice := fun _ => 0 }

/-- C9 counterexample: the claim quantifies over arbitrary intervening
non-session-state commands, but an intervening `execute_python` — which is
not a session-state command — can mutate the session-state dict through the
exec namespace: after `session_state.clear()` the later `get_session_state`
for `"k"` returns `None` instead of the stored `42`. -/
theorem C9_counterexample :
    ¬ dataRetrieves
      (CommandExecutor.execute hostPyClear
        (runCommands hostPyClear
          (CommandExecutor.execute hostPyClear ExecState.initial
            (setStateCmd (.str "k") (.int 42))).2
          [[(.str "type", .str "execute_python"),
            (.str "code", .str "session_state.clear()")]])
        (getStateCmd (.str "k"))).1 (.str "k") (.int 42) := by
  have hres : (CommandExecutor.execute hostPyClear
      (runCommands hostPyClear
        (CommandExecutor.execute hostPyClear ExecState.initial
          (setStateCmd (.str "k") (.int 42))).2
        [[(.str "type", .str "execute_python"),
          (.str "code", .str "session_state.clear()")]])
      (getStateCmd (.str "k"))).1
      = successData (.map [(.str "key", .str "k"), (.str "value", .nil)]) := rfl
  rw [hres]
  rintro ⟨_, ⟨_, hv⟩ | hst⟩
  · exact absurd (Option.some.inj hv) (fun h => Value.noConfusion h)
  · exact hst

/-- Witness for C9's amended claim: store 42 under "k", run an
`execute_python` whose snippet leaves the session state alone and then an
unrelated `save_scene` in between, read "k" back. -/
theorem C9_witness :
    dataRetrieves
      (CommandExecutor.execute hostApprove
        (runCommands hostApprove
          (CommandExecutor.execute hostApprove ExecState.initial
            (setStateCmd (.str "k") (.int 42))).2
          [[(.str "type", .str "execute_python"), (.str "code", .str "x = 1")],
           [(.str "type", .str "save_scene")]])
        (getStateCmd (.str "k"))).1 (.str "k") (.int 42) :=
  C9_amended_session_state_persists hostApprove ExecState.initial
    (.str "k") (.int 42)
    [[(.str "type", .str "execute_python"), (.str "code", .str "x = 1")],
     [(.str "type", .str "save_scene")]] rfl
    (fun c hc => by
      simp only [List.mem_cons, List.mem_singleton, List.not_mem_nil,
        or_false] at hc
      rcases hc with rfl | rfl
      · exact ⟨fun h => absurd (Value.str.inj h) (by decide),
               fun h => absurd (Value.str.inj h) (by decide),
               fun _ hou s h => by cases h; rfl⟩
      · exact ⟨fun h => absurd (Value.str.inj h) (by decide),
               fun h => absurd (Value.str.inj h) (by decide),
               fun h => absurd (Value.str.inj h) (by decide)⟩)

/-- A string with a non-empty prefix is non-empty. -/
theorem append_ne_empty (s t : String) (hs : s ≠ "") : s ++ t ≠ "" := by
  intro h
  apply hs
  have hlen := congrArg String.length h
  rw [String.length_append] at hlen
  have : s.length = 0 := by
    have h0 : ("" : String).length = 0 := rfl
    omega
  cases s with
  | mk data =>
      cases data with
      | nil => rfl
      | cons c cs => simp [String.length, List.length] at this

/-- A failure Result is well-errored when its error text is present and
non-empty. -/
def goodError (r : Result) : Prop :=
  r.success = false → ∃ e, r.error = some e ∧ e ≠ ""

/-- A handler outcome is well-errored when a returned failure Result has a
non-empty error and a raised exception has a non-empty text. -/
def exceptGood (x : Except String Result) : Prop :=
  (∀ r, x = .ok r → goodError r) ∧ (∀ e, x = .error e → e ≠ "")

/-- Like `exceptGood` for handlers returning a Result with a state. -/
def exceptGoodPair (x : Except String (Result × ExecState)) : Prop :=
  (∀ p, x = .ok p → goodError p.1) ∧ (∀ e, x = .error e → e ≠ "")

/-- The host oracle raises only exceptions with non-empty texts (Python's
`str(e)` of a real host-API error). -/
def Hou.exnNonempty (hou : Hou) : Prop :=
  (∀ p e, hou.node p = .error e → e ≠ "")
  ∧ (∀ n t m e, hou.createNode n t m = .error e → e ≠ "")
  ∧ (∀ n e, hou.destroy n = .error e → e ≠ "")
  ∧ (∀ p v e, hou.parmSet p v = .error e → e ≠ "")
  ∧ (∀ n b e, hou.setSelected n b = .error e → e ≠ "")
  ∧ (∀ f e, hou.hipSave f = .error e → e ≠ "")
  ∧ (∀ f e, hou.hipLoad f = .error e → e ≠ "")
  ∧ (∀ c s e, (hou.execPython c s).2 = .error e → e ≠ "")

/-- The host raises only non-empty exception texts (vacuous outside
Houdini). -/
def Host.exnNonempty (host : Host) : Prop :=
  ∀ hou, host.hou = some hou → hou.exnNonempty

theorem goodError_failure {msg : String} (h : msg ≠ "") :
    goodError (failure msg) := fun _ => ⟨msg, rfl, h⟩

theorem goodError_successData (d : Value) : goodError (successData d) := by
  intro h
  cases h

theorem goodError_exnResult {e : String} (h : e ≠ "") :
    goodError (exnResult e) := fun _ => ⟨e, rfl, h⟩

theorem goodError_houNA : goodError houNotAvailable :=
  goodError_failure (by decide)

theorem exceptGood_ok {r : Result} (h : goodError r) : exceptGood (.ok r) :=
  ⟨fun _ hr => (by cases hr; exact h), fun _ he => (by cases he)⟩

theorem exceptGood_error {e : String} (h : e ≠ "") :
    exceptGood (.error e : Except String Result) := by
  unfold exceptGood
  exact ⟨fun _ hr => (by cases hr), fun _ he => (by cases he; exact h)⟩

/-- Chaining: a bind is well-errored when the first stage raises only
non-empty texts and every continuation is well-errored. -/
theorem exceptGood_bind {α : Type} (x : Except String α)
    (f : α → Except String Result)
    (hx : ∀ e, x = .error e → e ≠ "")
    (hf : ∀ a, exceptGood (f a)) :
    exceptGood (x >>= f) := by
  cases x with
  | error e =>
      unfold exceptGood
      exact ⟨fun _ hr => (by cases hr),
             fun e' he' => (by cases he'; exact hx e rfl)⟩
  | ok a => exact hf a

/-- The `asDict` exception text is non-empty. -/
theorem asDict_error_ne {v : Value} {e : String} (h : asDict v = .error e) :
    e ≠ "" := by
  cases v <;> simp [asDict] at h <;>
    (subst h; exact append_ne_empty _ _ (append_ne_empty "'" _ (by decide)))

/-- The `asList` exception text is non-empty. -/
theorem asList_error_ne {v : Value} {e : String} (h : asList v = .error e) :
    e ≠ "" := by
  cases v <;> simp [asList] at h <;>
    (subst h; exact append_ne_empty _ _ (append_ne_empty "'" _ (by decide)))

theorem exceptGoodPair_ok {p : Result × ExecState} (h : goodError p.1) :
    exceptGoodPair (.ok p) := by
  unfold exceptGoodPair
  exact ⟨fun _ hp => (by cases hp; exact h), fun _ he => (by cases he)⟩

theorem exceptGoodPair_error {e : String} (h : e ≠ "") :
    exceptGoodPair (.error e : Except String (Result × ExecState)) := by
  unfold exceptGoodPair
  exact ⟨fun _ hp => (by cases hp), fun _ he => (by cases he; exact h)⟩

theorem exceptGoodPair_map {x : Except String Result} {es₁ : ExecState}
    (hx : exceptGood x) :
    exceptGoodPair (x.map (fun r => (r, es₁))) := by
  cases x with
  | error e => exact exceptGoodPair_error (hx.2 e rfl)
  | ok r => exact exceptGoodPair_ok (hx.1 r rfl)

theorem setParms_error_ne (hou : Hou) (node : Node)
    (hps : ∀ p v e, hou.parmSet p v = .error e → e ≠ "") :
    ∀ (ps : List (Value × Value)) (e : String),
      CommandExecutor.setParms hou node ps = .error e → e ≠ ""
  | [], _, h => by cases h
  | (pn, v) :: rest, e, h => by
      unfold CommandExecutor.setParms at h
      cases hp : node.parm pn with
      | some parm =>
          rw [hp] at h
          simp only [] at h
          rcases hx : hou.parmSet parm v with e' | u <;>
            rw [hx] at h <;> simp only [Bind.bind, Except.bind] at h
          · cases h; exact hps _ _ _ hx
          · exact setParms_error_ne hou node hps rest e h
      | none =>
          rw [hp] at h
          simp only [] at h
          simp only [Bind.bind, Except.bind, pure, Except.pure] at h
          exact setParms_error_ne hou node hps rest e h

theorem collectNodes_error_ne (hou : Hou)
    (hn : ∀ p e, hou.node p = .error e → e ≠ "") :
    ∀ (paths : List Value) (e : String),
      CommandExecutor.collectNodes hou paths = .error e → e ≠ ""
  | [], _, h => by cases h
  | p :: rest, e, h => by
      unfold CommandExecutor.collectNodes at h
      rcases hx : hou.node p with e' | n? <;>
        rw [hx] at h <;> simp only [Bind.bind, Except.bind] at h
      · cases h; exact hn _ _ hx
      · rcases hr : CommandExecutor.collectNodes hou rest with e' | ns <;>
          rw [hr] at h <;> simp only [Except.bind] at h
        · cases h; exact collectNodes_error_ne hou hn rest _ hr
        · cases n? <;> simp only [] at h <;> cases h

theorem forEach_error_ne (g : Node → Except String Unit)
    (hg : ∀ n e, g n = .error e → e ≠ "") :
    ∀ (l : List Node) (e : String),
      CommandExecutor.forEach g l = .error e → e ≠ ""
  | [], _, h => by cases h
  | n :: rest, e, h => by
      unfold CommandExecutor.forEach at h
      rcases hx : g n with e' | u <;>
        rw [hx] at h <;> simp only [Bind.bind, Except.bind] at h
      · cases h; exact hg _ _ hx
      · exact forEach_error_ne g hg rest e h

/-- The host-availability hypothesis for one handler. -/
def houGood (hou? : Option Hou) : Prop :=
  ∀ hou, hou? = some hou → hou.exnNonempty

theorem execCreateNode_good (hou? : Option Hou) (c : List (Value × Value))
    (hh : houGood hou?) :
    exceptGood (CommandExecutor.execCreateNode hou? c) := by
  cases hou? with
  | none => exact exceptGood_ok goodError_houNA
  | some hou =>
      obtain ⟨hnode, hcreate, _, hparm, _, _, _, _⟩ := hh hou rfl
      unfold CommandExecutor.execCreateNode
      apply exceptGood_bind
      · exact fun e he => hnode _ e he
      · intro parent?
        cases parent? with
        | none =>
            exact exceptGood_ok (goodError_failure (append_ne_empty _ _ (by decide)))
        | some parent =>
            apply exceptGood_bind
            · exact fun e he => hcreate _ _ _ e he
            · intro node
              split
              · apply exceptGood_bind
                · exact fun e he => setParms_error_ne hou node hparm _ e he
                · intro _
                  exact exceptGood_ok (goodError_successData _)
              · exact exceptGood_error
                  (append_ne_empty _ _ (append_ne_empty "'" _ (by decide)))

theorem execDeleteNode_good (hou? : Option Hou) (c : List (Value × Value))
    (hh : houGood hou?) :
    exceptGood (CommandExecutor.execDeleteNode hou? c) := by
  cases hou? with
  | none => exact exceptGood_ok goodError_houNA
  | some hou =>
      obtain ⟨hnode, _, hdestroy, _, _, _, _, _⟩ := hh hou rfl
      unfold CommandExecutor.execDeleteNode
      apply exceptGood_bind
      · exact fun e he => hnode _ e he
      · intro node?
        cases node? with
        | none =>
            exact exceptGood_ok (goodError_failure (append_ne_empty _ _ (by decide)))
        | some node =>
            apply exceptGood_bind
            · exact fun e he => hdestroy _ e he
            · intro _
              exact exceptGood_ok (goodError_successData _)

theorem execSetParameter_good (hou? : Option Hou) (c : List (Value × Value))
    (hh : houGood hou?) :
    exceptGood (CommandExecutor.execSetParameter hou? c) := by
  cases hou? with
  | none => exact exceptGood_ok goodError_houNA
  | some hou =>
      obtain ⟨hnode, _, _, hparm, _, _, _, _⟩ := hh hou rfl
      unfold CommandExecutor.execSetParameter
      apply exceptGood_bind
      · exact fun e he => hnode _ e he
      · intro node?
        split
        · exact exceptGood_ok (goodError_failure (append_ne_empty _ _ (by decide)))
        · split
          · exact exceptGood_ok (goodError_failure (append_ne_empty _ _ (by decide)))
          · apply exceptGood_bind
            · exact fun e he => hparm _ _ e he
            · intro _
              exact exceptGood_ok (goodError_successData _)

theorem execGetParameter_good (hou? : Option Hou) (c : List (Value × Value))
    (hh : houGood hou?) :
    exceptGood (CommandExecutor.execGetParameter hou? c) := by
  cases hou? with
  | none => exact exceptGood_ok goodError_houNA
  | some hou =>
      obtain ⟨hnode, _, _, _, _, _, _, _⟩ := hh hou rfl
      unfold CommandExecutor.execGetParameter
      apply exceptGood_bind
      · exact fun e he => hnode _ e he
      · intro node?
        split
        · exact exceptGood_ok (goodError_failure (append_ne_empty _ _ (by decide)))
        · split
          · exact exceptGood_ok (goodError_failure (append_ne_empty _ _ (by decide)))
          · exact exceptGood_ok (goodError_successData _)

theorem execSelectNodes_good (hou? : Option Hou) (c : List (Value × Value))
    (hh : houGood hou?) :
    exceptGood (CommandExecutor.execSelectNodes hou? c) := by
  cases hou? with
  | none => exact exceptGood_ok goodError_houNA
  | some hou =>
      obtain ⟨hnode, _, _, _, hsel, _, _, _⟩ := hh hou rfl
      unfold CommandExecutor.execSelectNodes
      apply exceptGood_bind
      · exact fun e he => asList_error_ne he
      · intro paths
        apply exceptGood_bind
        · exact fun e he => collectNodes_error_ne hou hnode paths e he
        · intro nodes
          apply exceptGood_bind
          · exact fun e he =>
              forEach_error_ne _ (fun n e' he' => hsel n false e' he') _ e he
          · intro _
            apply exceptGood_bind
            · exact fun e he =>
                forEach_error_ne _ (fun n e' he' => hsel n true e' he') _ e he
            · intro _
              exact exceptGood_ok (goodError_successData _)

theorem execGetNodeInfo_good (hou? : Option Hou) (c : List (Value × Value))
    (hh : houGood hou?) :
    exceptGood (CommandExecutor.execGetNodeInfo hou? c) := by
  cases hou? with
  | none => exact exceptGood_ok goodError_houNA
  | some hou =>
      obtain ⟨hnode, _, _, _, _, _, _, _⟩ := hh hou rfl
      unfold CommandExecutor.execGetNodeInfo
      apply exceptGood_bind
      · exact fun e he => hnode _ e he
      · intro node?
        split
        · exact exceptGood_ok (goodError_failure (append_ne_empty _ _ (by decide)))
        · exact exceptGood_ok (goodError_successData _)

theorem execSaveScene_good (hou? : Option Hou) (c : List (Value × Value))
    (hh : houGood hou?) :
    exceptGood (CommandExecutor.execSaveScene hou? c) := by
  cases hou? with
  | none => exact exceptGood_ok goodError_houNA
  | some hou =>
      obtain ⟨_, _, _, _, _, hsave, _, _⟩ := hh hou rfl
      unfold CommandExecutor.execSaveScene
      simp only []
      split
      · apply exceptGood_bind
        · exact fun e he => hsave _ e he
        · intro _
          exact exceptGood_ok (goodError_successData _)
      · apply exceptGood_bind
        · exact fun e he => hsave _ e he
        · intro _
          exact exceptGood_ok (goodError_successData _)

theorem execLoadScene_good (hou? : Option Hou) (c : List (Value × Value))
    (hh : houGood hou?) :
    exceptGood (CommandExecutor.execLoadScene hou? c) := by
  cases hou? with
  | none => exact exceptGood_ok goodError_houNA
  | some hou =>
      obtain ⟨_, _, _, _, _, _, hload, _⟩ := hh hou rfl
      unfold CommandExecutor.execLoadScene
      apply exceptGood_bind
      · exact fun e he => hload _ e he
      · intro _
        exact exceptGood_ok (goodError_successData _)

theorem execGetSessionState_good (es : ExecState) (c : List (Value × Value)) :
    exceptGood (CommandExecutor.execGetSessionState es c) := by
  unfold CommandExecutor.execGetSessionState
  simp only []
  split
  · split
    · exact exceptGood_ok (goodError_successData _)
    · exact exceptGood_error
        (append_ne_empty _ _ (append_ne_empty "unhashable type: '" _ (by decide)))
  · exact exceptGood_ok (goodError_successData _)

theorem execSetSessionState_good (es : ExecState) (c : List (Value × Value)) :
    exceptGoodPair (CommandExecutor.execSetSessionState es c) := by
  unfold CommandExecutor.execSetSessionState
  simp only []
  split
  · exact exceptGoodPair_ok (goodError_successData _)
  · exact exceptGoodPair_error
      (append_ne_empty _ _ (append_ne_empty "unhashable type: '" _ (by decide)))

theorem execGetSelection_good (hou? : Option Hou) (es : ExecState) :
    goodError (CommandExecutor.execGetSelection hou? es).1 := by
  cases hou? with
  | none => exact goodError_houNA
  | some hou => exact goodError_successData _

theorem execExecutePython_good (hou? : Option Hou) (es : ExecState)
    (c : List (Value × Value)) (hh : houGood hou?) :
    goodError (CommandExecutor.execExecutePython hou? es c).1 := by
  cases hou? with
  | none => exact goodError_houNA
  | some hou =>
      obtain ⟨_, _, _, _, _, _, _, hpy⟩ := hh hou rfl
      unfold CommandExecutor.execExecutePython
      simp only []
      rcases hx : hou.execPython (dget c "code") es.sessionState with ⟨ns, out⟩
      cases out with
      | ok r => exact goodError_successData _
      | error e =>
          exact goodError_exnResult
            (hpy (dget c "code") es.sessionState e (by rw [hx]))

set_option maxHeartbeats 1000000 in
/-- Every outcome of the dispatch chain is well-errored (host exceptions
assumed to carry non-empty texts). -/
theorem attempt_good (host : Host) (es : ExecState) (c : List (Value × Value))
    (hh : Host.exnNonempty host) :
    exceptGoodPair (CommandExecutor.attempt host es c) := by
  unfold CommandExecutor.attempt
  simp only []
  by_cases g1 : Value.beq (dget c "type") (Value.str "create_node") = true
  · rw [if_pos g1]; exact exceptGoodPair_map (execCreateNode_good host.hou c hh)
  rw [if_neg g1]
  by_cases g2 : Value.beq (dget c "type") (Value.str "delete_node") = true
  · rw [if_pos g2]; exact exceptGoodPair_map (execDeleteNode_good host.hou c hh)
  rw [if_neg g2]
  by_cases g3 : Value.beq (dget c "type") (Value.str "set_parameter") = true
  · rw [if_pos g3]; exact exceptGoodPair_map (execSetParameter_good host.hou c hh)
  rw [if_neg g3]
  by_cases g4 : Value.beq (dget c "type") (Value.str "get_parameter") = true
  · rw [if_pos g4]; exact exceptGoodPair_map (execGetParameter_good host.hou c hh)
  rw [if_neg g4]
  by_cases g5 : Value.beq (dget c "type") (Value.str "get_selection") = true
  · rw [if_pos g5]; exact exceptGoodPair_ok (execGetSelection_good host.hou _)
  rw [if_neg g5]
  by_cases g6 : Value.beq (dget c "type") (Value.str "select_nodes") = true
  · rw [if_pos g6]; exact exceptGoodPair_map (execSelectNodes_good host.hou c hh)
  rw [if_neg g6]
  by_cases g7 : Value.beq (dget c "type") (Value.str "get_node_info") = true
  · rw [if_pos g7]; exact exceptGoodPair_map (execGetNodeInfo_good host.hou c hh)
  rw [if_neg g7]
  by_cases g8 : Value.beq (dget c "type") (Value.str "execute_python") = true
  · rw [if_pos g8]
    exact exceptGoodPair_ok (execExecutePython_good host.hou _ c hh)
  rw [if_neg g8]
  by_cases g9 : Value.beq (dget c "type") (Value.str "save_scene") = true
  · rw [if_pos g9]; exact exceptGoodPair_map (execSaveScene_good host.hou c hh)
  rw [if_neg g9]
  by_cases g10 : Value.beq (dget c "type") (Value.str "load_scene") = true
  · rw [if_pos g10]; exact exceptGoodPair_map (execLoadScene_good host.hou c hh)
  rw [if_neg g10]
  by_cases g11 : Value.beq (dget c "type") (Value.str "get_session_state") = true
  · rw [if_pos g11]; exact exceptGoodPair_map (execGetSessionState_good _ c)
  rw [if_neg g11]
  by_cases g12 : Value.beq (dget c "type") (Value.str "set_session_state") = true
  · rw [if_pos g12]; exact execSetSessionState_good _ c
  rw [if_neg g12]
  exact exceptGoodPair_ok (goodError_failure (append_ne_empty _ _ (by decide)))

/-- Whatever the command and the host oracle's outcomes, `execute` returns
a Result whose failure case carries a non-empty error. -/
theorem execute_good (host : Host) (es : ExecState) (c : List (Value × Value))
    (hh : Host.exnNonempty host) :
    goodError (CommandExecutor.execute host es c).1 := by
  unfold CommandExecutor.execute
  simp only []
  split
  case h_1 res heq =>
      exact (attempt_good host _ c hh).1 res heq
  case h_2 e heq =>
      exact goodError_exnResult ((attempt_good host _ c hh).2 e heq)

/-- The only exception `_generate_preview` can raise (a non-string code
value under `execute_python`) has a non-empty text. -/
theorem generatePreview_error_ne (c : List (Value × Value)) (e : String)
    (h : MessageHandler.generatePreview c = .error e) : e ≠ "" := by
  unfold MessageHandler.generatePreview at h
  simp only [] at h
  split at h
  · cases h
  split at h
  · cases h
  split at h
  · cases h
  split at h
  · rcases hc : dgetD c "code" (.str "") with _ | b | n | s | xs | m <;>
      rw [hc] at h <;> simp only [] at h
    · cases h
      exact append_ne_empty _ _ (append_ne_empty "'" _ (by decide))
    · cases h
      exact append_ne_empty _ _ (append_ne_empty "'" _ (by decide))
    · cases h
      exact append_ne_empty _ _ (append_ne_empty "'" _ (by decide))
    · cases h
    · cases h
      exact append_ne_empty _ _ (append_ne_empty "'" _ (by decide))
    · cases h
      exact append_ne_empty _ _ (append_ne_empty "'" _ (by decide))
  · cases h

/-- Every exception escaping the batch comprehension has a non-empty text. -/
theorem parseBatchItems_error_ne :
    ∀ (cmds : List Value) (e : String),
      MessageHandler.parseBatchItems cmds = .error e → e ≠ ""
  | [], _, h => by cases h
  | cmdV :: rest, e, h => by
      unfold MessageHandler.parseBatchItems at h
      rcases hd : asDict cmdV with e' | cmd <;>
        rw [hd] at h <;> simp only [Bind.bind, Except.bind] at h
      · cases h; exact asDict_error_ne hd
      rcases hp : MessageHandler.generatePreview cmd with e' | p <;>
        rw [hp] at h <;> simp only [Except.bind] at h
      · cases h; exact generatePreview_error_ne cmd _ hp
      rcases hr : MessageHandler.parseBatchItems rest with e' | items <;>
        rw [hr] at h <;> simp only [Except.bind] at h
      · cases h; exact parseBatchItems_error_ne rest _ hr
      · cases h

/-- Well-erroredness for dispatcher outcomes. -/
def dispatchGood (x : Except String (Result × MessageHandler.HandlerState)) :
    Prop :=
  (∀ p, x = .ok p → goodError p.1) ∧ (∀ e, x = .error e → e ≠ "")

theorem dispatchGood_ok {p : Result × MessageHandler.HandlerState}
    (h : goodError p.1) : dispatchGood (.ok p) := by
  unfold dispatchGood
  exact ⟨fun _ hp => (by cases hp; exact h), fun _ he => (by cases he)⟩

theorem dispatchGood_bind {α : Type} (x : Except String α)
    (f : α → Except String (Result × MessageHandler.HandlerState))
    (hx : ∀ e, x = .error e → e ≠ "")
    (hf : ∀ a, dispatchGood (f a)) :
    dispatchGood (x >>= f) := by
  cases x with
  | error e =>
      unfold dispatchGood
      exact ⟨fun _ hp => (by cases hp),
             fun e' he' => (by cases he'; exact hx e rfl)⟩
  | ok a => exact hf a

theorem handleCommand_good (host : Host) (st : MessageHandler.HandlerState)
    (message : List (Value × Value)) (hh : Host.exnNonempty host) :
    dispatchGood (MessageHandler.handleCommand host st message) := by
  unfold MessageHandler.handleCommand
  apply dispatchGood_bind
  · exact fun e he => asDict_error_ne he
  · intro command
    simp only []
    split
    · apply dispatchGood_bind
      · exact fun e he => generatePreview_error_ne _ e he
      · intro p
        split
        · exact dispatchGood_ok (execute_good host st.exec command hh)
        · exact dispatchGood_ok (goodError_failure (by decide))
    · exact dispatchGood_ok (execute_good host st.exec command hh)

theorem handleSetApprovalMode_good (host : Host)
    (st : MessageHandler.HandlerState) (message : List (Value × Value)) :
    dispatchGood (MessageHandler.handleSetApprovalMode host st message) := by
  unfold MessageHandler.handleSetApprovalMode
  apply dispatchGood_bind
  · exact fun e he => asDict_error_ne he
  · intro data
    simp only []
    split
    · exact dispatchGood_ok (goodError_successData _)
    · exact dispatchGood_ok (goodError_failure (append_ne_empty _ _ (by decide)))

theorem handleBatch_good (host : Host) (st : MessageHandler.HandlerState)
    (message : List (Value × Value)) :
    dispatchGood (MessageHandler.handleBatch host st message) := by
  unfold MessageHandler.handleBatch
  apply dispatchGood_bind
  · exact fun e he => asDict_error_ne he
  · intro data
    apply dispatchGood_bind
    · exact fun e he => asList_error_ne he
    · intro commandsV
      apply dispatchGood_bind
      · exact fun e he => parseBatchItems_error_ne commandsV e he
      · intro parsed
        exact dispatchGood_ok (goodError_successData _)

theorem handleMessage_good (host : Host) (st : MessageHandler.HandlerState)
    (message : List (Value × Value)) (hh : Host.exnNonempty host) :
    dispatchGood (MessageHandler.handleMessage host st message) := by
  unfold MessageHandler.handleMessage
  simp only []
  split
  · exact handleCommand_good host st message hh
  split
  · exact handleBatch_good host st message
  split
  · exact handleSetApprovalMode_good host st message
  split
  · exact dispatchGood_ok (goodError_successData _)
  exact dispatchGood_ok (goodError_failure (append_ne_empty _ _ (by decide)))

/-- C4: `handle_binary` is total — every input produces exactly one reply.
Malformed bytes (a decode exception) yield the
`Message decoding error: ...` failure with the state untouched, and on
every input whatsoever, a failure reply carries a present, non-empty error
string: decode failures and dispatch exceptions get the non-empty
`Message decoding error: ` prefix, and handler failures are covered by the
executor's error taxonomy (host exceptions assumed to carry the non-empty
`str(e)` of a real error). -/
theorem C4_handle_binary_total (host : Host)
    (st : MessageHandler.HandlerState) (decoded : Except String Value)
    (hh : Host.exnNonempty host) :
    (∀ e, decoded = .error e →
      MessageHandler.handleBinary host st decoded
        = (failure ("Message decoding error: " ++ e), st))
    ∧ ((MessageHandler.handleBinary host st decoded).1.success = false →
        ∃ e, (MessageHandler.handleBinary host st decoded).1.error = some e
          ∧ e ≠ "") := by
  constructor
  · intro e he
    subst he
    rfl
  · cases decoded with
    | error e =>
        intro _
        exact ⟨_, rfl, append_ne_empty _ _ (by decide)⟩
    | ok v =>
        cases v with
        | map m =>
            unfold MessageHandler.handleBinary
            simp only []
            rcases hm : MessageHandler.handleMessage host st m with e | p
            · intro _
              exact ⟨_, rfl, append_ne_empty _ _ (by decide)⟩
            · intro hs
              exact (handleMessage_good host st m hh).1 p hm hs
        | nil =>
            intro _
            exact ⟨_, rfl,
              append_ne_empty _ _ (append_ne_empty "Message decoding error: '" _ (by decide))⟩
        | bool b =>
            intro _
            exact ⟨_, rfl,
              append_ne_empty _ _ (append_ne_empty "Message decoding error: '" _ (by decide))⟩
        | int n =>
            intro _
            exact ⟨_, rfl,
              append_ne_empty _ _ (append_ne_empty "Message decoding error: '" _ (by decide))⟩
        | str s =>
            intro _
            exact ⟨_, rfl,
              append_ne_empty _ _ (append_ne_empty "Message decoding error: '" _ (by decide))⟩
        | list xs =>
            intro _
            exact ⟨_, rfl,
              append_ne_empty _ _ (append_ne_empty "Message decoding error: '" _ (by decide))⟩

/-- Witness for C4 at a concrete decode failure outside the host. -/
theorem C4_witness :
    (∀ e, (Except.error "unpack failed" : Except String Value) = .error e →
      MessageHandler.handleBinary hostOutside MessageHandler.HandlerState.initial
          (.error "unpack failed")
        = (failure ("Message decoding error: " ++ e),
           MessageHandler.HandlerState.initial))
    ∧ ((MessageHandler.handleBinary hostOutside MessageHandler.HandlerState.initial
          (.error "unpack failed")).1.success = false →
        ∃ e, (MessageHandler.handleBinary hostOutside
            MessageHandler.HandlerState.initial
            (.error "unpack failed")).1.error = some e ∧ e ≠ "") :=
  C4_handle_binary_total hostOutside MessageHandler.HandlerState.initial
    (.error "unpack failed") (fun hou h => Option.noConfusion h)

end HoudiniBridge
